import Mathlib

/-!
Shallow embedding of the RDF/XML streaming parser core
(`src/lib/RdfXmlParser.ts`): the per-element active-tag stack, namespace
resolution, the resource-mode and property-mode handlers, text handling,
close-tag handling, triple emission with reification, and the node-ID
registry.  The parser is modelled as a state machine over SAX events
(`open-tag`, `text`, `close-tag`); fallible handlers return `Except`.
The external IRI resolver (`relative-to-absolute-iri`, declared out of
scope by the design) is a parameter of the configuration.
-/

namespace RdfXml

/-- The RDF namespace (`RdfXmlParser.RDF`). -/
def RDF_NS : String := "http://www.w3.org/1999/02/22-rdf-syntax-ns#"

/-- The XML namespace (`RdfXmlParser.XML`). -/
def XML_NS : String := "http://www.w3.org/XML/1998/namespace"

/-- `RdfXmlParser.FORBIDDEN_NODE_ELEMENTS`. -/
def FORBIDDEN_NODE_ELEMENTS : List String :=
  ["RDF", "ID", "about", "bagID", "parseType", "resource", "nodeID", "li",
   "aboutEach", "aboutEachPrefix"]

/-- `RdfXmlParser.FORBIDDEN_PROPERTY_ELEMENTS`. -/
def FORBIDDEN_PROPERTY_ELEMENTS : List String :=
  ["Description", "RDF", "ID", "about", "bagID", "parseType", "resource",
   "nodeID", "aboutEach", "aboutEachPrefix"]

/-- RDF term (produced by the data factory). A literal carries an optional
language tag or an optional datatype IRI (`literal(lex, langOrDatatype)`). -/
inductive Term where
  | namedNode (value : String)
  | blankNode (value : String)
  | literal (value : String) (language : Option String) (datatype : Option String)
  | defaultGraph
deriving DecidableEq, Repr

/-- `.value` of a term, as used by `claimNodeId`. -/
def termValue : Term → String
  | .namedNode v => v
  | .blankNode v => v
  | .literal v _ _ => v
  | .defaultGraph => ""

/-- A quad `(subject, predicate, object, graph)`. -/
structure Quad where
  subj : Term
  pred : Term
  obj : Term
  graph : Term
deriving DecidableEq, Repr

/-- JavaScript string truthiness for an optional string: `undefined`/`null`
and the empty string are falsy. -/
def strTruthy : Option String → Bool
  | none => false
  | some s => !(s = "")

/-- Lookup in a JS-object-like association list (the last assignment wins,
matching how the maps are built by repeated assignment). -/
def jsGet (m : List (String × String)) (k : String) : Option String :=
  m.foldl (fun acc p => if p.1 = k then some p.2 else acc) none

/-- `ParseType` (resource mode vs property mode). -/
inductive ParseType where
  | RESOURCE
  | PROPERTY
deriving DecidableEq, Repr

/-- `IActiveTag`: one frame of the active-tag stack.  Optional fields of the
TypeScript interface become `Option`s; booleans that are only tested for
truthiness become `Bool` (absent = `false`). -/
structure IActiveTag where
  ns : Option (List (List (String × String))) := none
  subject : Option Term := none
  predicate : Option Term := none
  predicateEmitted : Bool := false
  predicateSubPredicates : List Term := []
  predicateSubObjects : List Term := []
  hadChildren : Bool := false
  text : Option String := none
  language : Option String := none
  datatype : Option String := none
  childrenParseType : Option ParseType := none
  baseIRI : String := ""
  listItemCounter : Option Nat := none
  reifiedStatementId : Option Term := none
  childrenTagsToString : Bool := false
  childrenStringTags : Option (List String) := none
  childrenStringEmitClosingTag : Option String := none
  childrenCollectionSubject : Option Term := none
  childrenCollectionPredicate : Option Term := none
deriving DecidableEq, Repr

/-- Parser configuration (constructor arguments).  `resolve` is the external
pure IRI-resolution function `resolve(value, baseIRI)`. -/
structure Config where
  baseIRI : String := ""
  allowDuplicateRdfIds : Bool := false
  defaultGraph : Term := Term.defaultGraph
  resolve : String → String → String

/-- Mutable parser state: the active-tag stack (top of the JS array is the
HEAD of this list), the node-ID registry, the blank-node generation counter
of the data factory, and the quads pushed downstream so far (in order). -/
structure ParserState where
  activeTagStack : List IActiveTag := []
  nodeIds : List String := []
  blankNodeCounter : Nat := 0
  output : List Quad := []
deriving DecidableEq, Repr

/-- Label of the `n`-th freshly generated blank node. -/
def freshLabel (n : Nat) : String := "b" ++ toString n

/-- `dataFactory.blankNode()` with no label: mint a fresh blank node. -/
def mintBlank (st : ParserState) : Term × ParserState :=
  (Term.blankNode (freshLabel st.blankNodeCounter),
   { st with blankNodeCounter := st.blankNodeCounter + 1 })

/-- `literal(value, datatype || language)`: the JS `||` picks the datatype
when present, else the language; an empty-string language is falsy. -/
def mkLiteral (value : String) (dt : Option String) (lang : Option String) : Term :=
  match dt with
  | some d => Term.literal value none (some d)
  | none =>
    match lang with
    | some l => if l = "" then Term.literal value none none else Term.literal value (some l) none
    | none => Term.literal value none none

/-- An expanded name `{prefix, local, uri}` (`IExpandedPrefix` in the source;
the first two field names are not usable in this development). -/
structure Expanded where
  pfx : String
  localName : String
  uri : String
deriving DecidableEq, Repr

/-- Split a raw name on its first `:` (`prefix`/`local` computation of
`expandPrefixedTerm`). -/
def splitPrefixLocal (term : String) : String × String :=
  let cs := term.toList
  match cs.findIdx? (· = ':') with
  | some i => (String.mk (cs.take i), String.mk (cs.drop (i + 1)))
  | none => ("", term)

/-- The namespace-stack scan of `expandPrefixedTerm`, walking the input list
(given innermost-first, i.e. the reverse of the stored array) and threading
the remembered default namespace.  Returns the found URI (if any) and the
final remembered default. -/
def expandLookup (pfx : String) : List (List (String × String)) → Option String →
    Option String × Option String
  | [], dflt => (none, dflt)
  | m :: rest, dflt =>
    let e := jsGet m pfx
    if strTruthy e then (e, dflt)
    else expandLookup pfx rest (if strTruthy dflt then dflt else jsGet m "")

/-- `RdfXmlParser.expandPrefixedTerm`: expand a raw name against the
namespace stack; an unbound non-empty prefix other than `xmlns` is an
error. -/
def expandPrefixedTerm (term : String) (ns : List (List (String × String))) :
    Except String Expanded :=
  let p := splitPrefixLocal term
  let r := expandLookup p.1 ns.reverse none
  if strTruthy r.1 then .ok ⟨p.1, p.2, r.1.getD ""⟩
  else if p.1 ≠ "" ∧ p.1 ≠ "xmlns" then
    .error ("The prefix in term was not bound: " ++ term)
  else .ok ⟨p.1, p.2, if strTruthy r.2 then r.2.getD "" else ""⟩

/-- Scheme-tail characters of `IRI_REGEX`: `[A-Za-z0-9+-.]` (the class range
`+-.` covers the code points 0x2B to 0x2E). -/
def isSchemeRest (c : Char) : Bool :=
  c.isAlpha || c.isDigit || (0x2B ≤ c.toNat && c.toNat ≤ 0x2E)

/-- Characters allowed after the colon by `IRI_REGEX` (anything except
space, double quote, angle brackets, braces, pipe, backslash, square
brackets and the 0x60 accent character). -/
def isIriTail (c : Char) : Bool :=
  let n := c.toNat
  !(n = 0x20 || n = 0x22 || n = 0x3C || n = 0x3E || n = 0x7B || n = 0x7D ||
    n = 0x7C || n = 0x5C || n = 0x5B || n = 0x5D || n = 0x60)

/-- Scan the part of an IRI after its first character: scheme characters up
to a mandatory `:`, then tail characters. -/
def schemeTail : List Char → Bool
  | [] => false
  | c :: rest =>
    if c = ':' then rest.all isIriTail
    else if isSchemeRest c then schemeTail rest
    else false

/-- `RdfXmlParser.isValidIri`: match against `IRI_REGEX`. -/
def isValidIri (iri : String) : Bool :=
  match iri.toList with
  | [] => false
  | c :: rest => c.isAlpha && schemeTail rest

/-- Name-start characters of `NCNAME_MATCHER`. -/
def isNCStart (c : Char) : Bool :=
  let n := c.toNat
  c.isAlpha || c = '_' ||
  (0xC0 ≤ n && n ≤ 0xD6) || (0xD8 ≤ n && n ≤ 0xF6) || (0xF8 ≤ n && n ≤ 0x2FF) ||
  (0x370 ≤ n && n ≤ 0x37D) || (0x37F ≤ n && n ≤ 0x1FFF) ||
  (0x200C ≤ n && n ≤ 0x200D) || (0x2070 ≤ n && n ≤ 0x218F) ||
  (0x2C00 ≤ n && n ≤ 0x2FEF) || (0x3001 ≤ n && n ≤ 0xD7FF) ||
  (0xF900 ≤ n && n ≤ 0xFDCF) || (0xFDF0 ≤ n && n ≤ 0xFFFD) ||
  (0x10000 ≤ n && n ≤ 0xEFFFF)

/-- Name-tail characters of `NCNAME_MATCHER`: the source regex writes the
class `_\-.0-9#xB7`, so it literally contains `#` (and `x`, `B`, `7`, which
the other classes already cover) rather than the U+00B7 code point. -/
def isNCRest (c : Char) : Bool :=
  isNCStart c || c = '-' || c = '.' || c.isDigit || c = '#' ||
  (0x300 ≤ c.toNat && c.toNat ≤ 0x36F) || (0x203F ≤ c.toNat && c.toNat ≤ 0x2040)

/-- Test against `NCNAME_MATCHER`. -/
def ncnameMatches (s : String) : Bool :=
  match s.toList with
  | [] => false
  | c :: rest => isNCStart c && rest.all isNCRest

/-- `RdfXmlParser.validateNcname`. -/
def validateNcname (value : String) : Except String Unit :=
  if ncnameMatches value then .ok () else .error ("Not a valid NCName: " ++ value)

/-- `RdfXmlParser.uriToNamedNode`: validate, then build a named node. -/
def uriToNamedNode (uri : String) : Except String Term :=
  if isValidIri uri then .ok (Term.namedNode uri) else .error ("Invalid URI: " ++ uri)

/-- `RdfXmlParser.valueToUri`: resolve against the active tag's base IRI,
then validate. -/
def valueToUri (cfg : Config) (value : String) (activeTag : IActiveTag) :
    Except String Term :=
  uriToNamedNode (cfg.resolve value activeTag.baseIRI)

/-- The initial namespace frame `DEFAULT_NS` (`xml` bound). -/
def DEFAULT_NS_FRAME : List (String × String) := [("xml", XML_NS)]

/-- One step of the `xmlns` scan of `parseNamespace`: accumulate the local
namespace declarations of this tag and whether any were found. -/
def parseNamespaceStep (acc : List (String × String) × Bool) (kv : String × String) :
    List (String × String) × Bool :=
  let k := kv.1
  if (k.toList.take 5) = ['x', 'm', 'l', 'n', 's'] then
    if k.toList.length = 5 then (acc.1 ++ [("", kv.2)], true)
    else if k.toList.get? 5 = some ':' then
      (acc.1 ++ [(String.mk (k.toList.drop 6), kv.2)], true)
    else acc
  else acc

/-- `RdfXmlParser.parseNamespace`: build this element's namespace stack from
its raw attributes and its parent's stack. -/
def parseNamespace (attributes : List (String × String)) (parentTag : Option IActiveTag) :
    List (List (String × String)) :=
  let r := attributes.foldl parseNamespaceStep ([], false)
  let parentNs :=
    match parentTag with
    | some p => match p.ns with
      | some l => l
      | none => [DEFAULT_NS_FRAME]
    | none => [DEFAULT_NS_FRAME]
  if r.2 then parentNs ++ [r.1] else parentNs

/-- `RdfXmlParser.emitTriple`: push the quad, then — when a reified
statement id is present — the four reification quads, in canonical order,
all in the configured default graph. -/
def emitTriple (cfg : Config) (st : ParserState) (subject predicate object : Term)
    (statementId : Option Term) : ParserState :=
  let st :=
    { st with output := st.output ++ [⟨subject, predicate, object, cfg.defaultGraph⟩] }
  match statementId with
  | some r =>
    { st with output := st.output ++
      [⟨r, Term.namedNode (RDF_NS ++ "type"), Term.namedNode (RDF_NS ++ "Statement"), cfg.defaultGraph⟩,
       ⟨r, Term.namedNode (RDF_NS ++ "subject"), subject, cfg.defaultGraph⟩,
       ⟨r, Term.namedNode (RDF_NS ++ "predicate"), predicate, cfg.defaultGraph⟩,
       ⟨r, Term.namedNode (RDF_NS ++ "object"), object, cfg.defaultGraph⟩] }
  | none => st

/-- `RdfXmlParser.claimNodeId`: register an `rdf:ID`-derived term, erroring
on a duplicate unless `allowDuplicateRdfIds` is set. -/
def claimNodeId (cfg : Config) (st : ParserState) (term : Term) :
    Except String ParserState :=
  if cfg.allowDuplicateRdfIds then .ok st
  else if st.nodeIds.contains (termValue term) then
    .error ("Found multiple occurrences of rdf:ID: " ++ termValue term)
  else .ok { st with nodeIds := st.nodeIds ++ [termValue term] }

/-- Accumulator of the attribute loop of `onTagResource`: the active tag
being mutated plus the loop-local variables. -/
structure ResAttrState where
  activeTag : IActiveTag
  predicates : List Term := []
  objects : List String := []
  activeSubjectValue : Option String := none
  claimSubjectNodeId : Bool := false
  subjectValueBlank : Bool := false
  explicitType : Option String := none
deriving DecidableEq, Repr

/-- One iteration of the attribute loop of `onTagResource` (lines 343-403):
the `rdf:*` cases are only taken when a parent tag exists. -/
def onTagResourceAttr (cfg : Config) (hasParent : Bool) (s : ResAttrState)
    (kv : String × String) : Except String ResAttrState :=
  let v := kv.2
  match expandPrefixedTerm kv.1 (s.activeTag.ns.getD []) with
  | .error e => .error e
  | .ok ex =>
    if hasParent ∧ ex.uri = RDF_NS ∧ ex.localName = "about" then
      if strTruthy s.activeSubjectValue then
        .error "Only one of rdf:about, rdf:nodeID and rdf:ID can be present"
      else .ok { s with activeSubjectValue := some v }
    else if hasParent ∧ ex.uri = RDF_NS ∧ ex.localName = "ID" then
      if strTruthy s.activeSubjectValue then
        .error "Only one of rdf:about, rdf:nodeID and rdf:ID can be present"
      else match validateNcname v with
        | .error e => .error e
        | .ok _ => .ok { s with activeSubjectValue := some ("#" ++ v), claimSubjectNodeId := true }
    else if hasParent ∧ ex.uri = RDF_NS ∧ ex.localName = "nodeID" then
      if strTruthy s.activeSubjectValue then
        .error "Only one of rdf:about, rdf:nodeID and rdf:ID can be present"
      else match validateNcname v with
        | .error e => .error e
        | .ok _ => .ok { s with activeSubjectValue := some v, subjectValueBlank := true }
    else if hasParent ∧ ex.uri = RDF_NS ∧ ex.localName = "bagID" then
      .error "rdf:bagID is not supported."
    else if hasParent ∧ ex.uri = RDF_NS ∧ ex.localName = "type" then
      .ok { s with explicitType := some v }
    else if hasParent ∧ ex.uri = RDF_NS ∧ ex.localName = "aboutEach" then
      .error "rdf:aboutEach is not supported."
    else if hasParent ∧ ex.uri = RDF_NS ∧ ex.localName = "aboutEachPrefix" then
      .error "rdf:aboutEachPrefix is not supported."
    else if hasParent ∧ ex.uri = RDF_NS ∧ ex.localName = "li" then
      .error "rdf:li on node elements are not supported."
    else if (¬(hasParent ∧ ex.uri = RDF_NS)) ∧ ex.uri = XML_NS ∧ ex.localName = "lang" then
      .ok { s with activeTag := { s.activeTag with
        language := if v = "" then none else some (String.mk (v.toList.map Char.toLower)) } }
    else if (¬(hasParent ∧ ex.uri = RDF_NS)) ∧ ex.uri = XML_NS ∧ ex.localName = "base" then
      .ok { s with activeTag := { s.activeTag with
        baseIRI := cfg.resolve v s.activeTag.baseIRI } }
    else
      -- property-shorthand attribute, unless the prefix is `xml` or the URI is empty
      if ¬(ex.pfx = "xml") ∧ ¬(ex.uri = "") then
        match uriToNamedNode (ex.uri ++ ex.localName) with
        | .error e => .error e
        | .ok p => .ok { s with predicates := s.predicates ++ [p], objects := s.objects ++ [v] }
      else .ok s

/-- The attribute loop of `onTagResource`, iterating in attribute order. -/
def resAttrLoop (cfg : Config) (hasParent : Bool) (s : ResAttrState) :
    List (String × String) → Except String ResAttrState
  | [] => .ok s
  | kv :: rest =>
    match onTagResourceAttr cfg hasParent s kv with
    | .ok s' => resAttrLoop cfg hasParent s' rest
    | .error e => .error e

/-- Emit the buffered `(subject, predicate, literal)` shorthand triples of a
node element (lines 462-466). -/
def emitShorthand (cfg : Config) (st : ParserState) (subj : Term) (activeTag : IActiveTag)
    (reified : Option Term) : List (Term × String) → ParserState
  | [] => st
  | (p, o) :: rest =>
    emitShorthand cfg
      (emitTriple cfg st subj p (mkLiteral o activeTag.datatype activeTag.language) reified)
      subj activeTag reified rest

/-- Emit deferred `(predicateSubPredicates[i], predicateSubObjects[i])` pairs
against a freshly decided subject. -/
def emitDeferred (cfg : Config) (st : ParserState) (subj : Term) :
    List (Term × Term) → ParserState
  | [] => st
  | (p, o) :: rest => emitDeferred cfg (emitTriple cfg st subj p o none) subj rest

/-- Subject creation of `onTagResource` after the attribute loop
(lines 405-412): resolve the collected subject value and claim the node ID
when it came from `rdf:ID`. -/
def resCreateSubject (cfg : Config) (st : ParserState) (s : ResAttrState) :
    Except String (IActiveTag × ParserState) :=
  match s.activeSubjectValue with
  | some v =>
    match (if s.subjectValueBlank then .ok (Term.blankNode v)
           else valueToUri cfg v s.activeTag : Except String Term) with
    | .error e => .error e
    | .ok subj =>
      let t := { s.activeTag with subject := some subj }
      if s.claimSubjectNodeId then
        match claimNodeId cfg st subj with
        | .error e => .error e
        | .ok st' => .ok (t, st')
      else .ok (t, st)
  | none => .ok (s.activeTag, st)

/-- Force the creation of a subject if it does not exist yet
(lines 414-417). -/
def resForceSubject (t1 : IActiveTag) (st1 : ParserState) :
    Term × IActiveTag × ParserState :=
  match t1.subject with
  | some sj => (sj, t1, st1)
  | none =>
    let r := mintBlank st1
    (r.1, { t1 with subject := some r.1 }, r.2)

/-- Interaction of a node element with its parent property element
(lines 426-459): collection chaining or set-based emission with the
deferred-property flush. -/
def resParentBlock (cfg : Config) (st3 : ParserState) (subj : Term) (t2 : IActiveTag)
    (pt : IActiveTag) : ParserState × IActiveTag :=
  if pt.predicate.isSome then
    match pt.childrenCollectionSubject with
    | some ccs =>
      -- rdf:List-based properties
      let r := mintBlank st3
      let st4 := emitTriple cfg r.2 ccs
        (pt.childrenCollectionPredicate.getD Term.defaultGraph) r.1
        pt.reifiedStatementId
      let st5 := emitTriple cfg st4 r.1 (Term.namedNode (RDF_NS ++ "first"))
        subj t2.reifiedStatementId
      (st5, { pt with
        childrenCollectionSubject := some r.1,
        childrenCollectionPredicate := some (Term.namedNode (RDF_NS ++ "rest")) })
    | none =>
      -- set-based properties
      let st4 := emitTriple cfg st3 (pt.subject.getD Term.defaultGraph)
        (pt.predicate.getD Term.defaultGraph) subj pt.reifiedStatementId
      let st5 := emitDeferred cfg st4 subj
        (pt.predicateSubPredicates.zip pt.predicateSubObjects)
      (st5, { pt with
        predicateSubPredicates := [],
        predicateSubObjects := [],
        predicateEmitted := true })
  else (st3, pt)

/-- Shorthand-triple and `rdf:type`-attribute emission of `onTagResource`
(lines 461-471, only reached when a parent exists). -/
def resFinish (cfg : Config) (st6in : ParserState) (subj : Term) (t2 : IActiveTag)
    (pt' : IActiveTag) (ptReified : Option Term) (s : ResAttrState) :
    Except String (ParserState × IActiveTag × Option IActiveTag) :=
  let st6 := emitShorthand cfg st6in subj t2 ptReified (s.predicates.zip s.objects)
  if strTruthy s.explicitType then
    match uriToNamedNode (s.explicitType.getD "") with
    | .error e => .error e
    | .ok tyn =>
      .ok (emitTriple cfg st6 subj (Term.namedNode (RDF_NS ++ "type")) tyn none, t2, some pt')
  else .ok (st6, t2, some pt')

/-- `RdfXmlParser.onTagResource` (node elements).  Returns the updated
parser state, the finished active tag, and the (possibly mutated) parent
tag. -/
def onTagResource (cfg : Config) (st : ParserState) (tagName : String)
    (attributes : List (String × String)) (activeTag0 : IActiveTag)
    (parentTag : Option IActiveTag) (rootTag : Bool) :
    Except String (ParserState × IActiveTag × Option IActiveTag) :=
  match expandPrefixedTerm tagName (activeTag0.ns.getD []) with
  | .error e => .error e
  | .ok tagExpanded =>
    let activeTag1 := { activeTag0 with childrenParseType := some ParseType.PROPERTY }
    if tagExpanded.uri = RDF_NS ∧ ¬rootTag ∧
        FORBIDDEN_NODE_ELEMENTS.contains tagExpanded.localName then
      .error ("Illegal node element name: " ++ tagExpanded.localName)
    else
      let activeTag2 :=
        if tagExpanded.uri = RDF_NS ∧ tagExpanded.localName = "RDF" then
          { activeTag1 with childrenParseType := some ParseType.RESOURCE }
        else activeTag1
      let typedNode : Bool :=
        ¬(tagExpanded.uri = RDF_NS ∧
          (tagExpanded.localName = "RDF" ∨ tagExpanded.localName = "Description"))
      match resAttrLoop cfg parentTag.isSome { activeTag := activeTag2 } attributes with
      | .error e => .error e
      | .ok s =>
        match resCreateSubject cfg st s with
        | .error e => .error e
        | .ok (t1, st1) =>
          let forced := resForceSubject t1 st1
          let subj := forced.1
          let t2 := forced.2.1
          let st2 := forced.2.2
          -- emit the type if we are at a typed node
          let afterType : Except String ParserState :=
            if typedNode then
              match uriToNamedNode (tagExpanded.uri ++ tagExpanded.localName) with
              | .error e => .error e
              | .ok ty => .ok (emitTriple cfg st2 subj (Term.namedNode (RDF_NS ++ "type")) ty
                  (parentTag.bind (·.reifiedStatementId)))
            else .ok st2
          match afterType with
          | .error e => .error e
          | .ok st3 =>
            match parentTag with
            | none => .ok (st3, t2, none)
            | some pt =>
              let withParent := resParentBlock cfg st3 subj t2 pt
              resFinish cfg withParent.1 subj t2 withParent.2 pt.reifiedStatementId s

/-- Accumulator of the attribute loop of `onTagProperty`: the active tag,
the parser state (the loop can mint blank nodes, emit and claim node IDs),
and the loop-local variables. -/
structure PropAttrState where
  st : ParserState
  activeTag : IActiveTag
  parseTypeFlag : Bool := false
  attributedProperty : Bool := false
  activeSubSubjectValue : Option String := none
  subSubjectValueBlank : Bool := true
  predicates : List Term := []
  objects : List Term := []
deriving DecidableEq, Repr

/-- The `rdf:resource` case of the property attribute loop (lines 519-531). -/
def propAttrResource (s : PropAttrState) (v : String) : Except String PropAttrState :=
  if strTruthy s.activeSubSubjectValue then
    .error "Found both rdf:resource and rdf:nodeID."
  else if s.parseTypeFlag then
    .error "rdf:parseType is not allowed on property elements with rdf:resource"
  else .ok { s with
    activeTag := { s.activeTag with hadChildren := true },
    activeSubSubjectValue := some v,
    subSubjectValueBlank := false }

/-- The `rdf:datatype` case (lines 532-542). -/
def propAttrDatatype (cfg : Config) (s : PropAttrState) (v : String) :
    Except String PropAttrState :=
  if s.attributedProperty then
    .error "Found both non-rdf property attributes and rdf:datatype."
  else if s.parseTypeFlag then
    .error "rdf:parseType is not allowed on property elements with rdf:datatype"
  else match valueToUri cfg v s.activeTag with
    | .error e => .error e
    | .ok dt => .ok { s with activeTag := { s.activeTag with datatype := some (termValue dt) } }

/-- The `rdf:nodeID` case (lines 543-559). -/
def propAttrNodeId (s : PropAttrState) (v : String) : Except String PropAttrState :=
  if s.attributedProperty then
    .error "Found both non-rdf property attributes and rdf:nodeID."
  else if s.activeTag.hadChildren then
    .error "Found both rdf:resource and rdf:nodeID."
  else if s.parseTypeFlag then
    .error "rdf:parseType is not allowed on property elements with rdf:nodeID"
  else match validateNcname v with
    | .error e => .error e
    | .ok _ => .ok { s with
        activeTag := { s.activeTag with hadChildren := true },
        activeSubSubjectValue := some v,
        subSubjectValueBlank := true }

/-- The `rdf:parseType` case (lines 562-599): the conflict checks run first,
then the three recognized regimes; any other value has no effect. -/
def propAttrParseType (cfg : Config) (s : PropAttrState) (v : String) :
    Except String PropAttrState :=
  if s.attributedProperty then
    .error "rdf:parseType is not allowed when non-rdf property attributes are present"
  else if s.activeTag.datatype.isSome then
    .error "rdf:parseType is not allowed on property elements with rdf:datatype"
  else if strTruthy s.activeSubSubjectValue then
    .error "rdf:parseType is not allowed on property elements with rdf:nodeID or rdf:resource"
  else if v = "Resource" then
    -- turn this property element into a node element
    let r := mintBlank s.st
    let st' := emitTriple cfg r.2 (s.activeTag.subject.getD Term.defaultGraph)
      (s.activeTag.predicate.getD Term.defaultGraph) r.1 s.activeTag.reifiedStatementId
    .ok { s with
      st := st',
      parseTypeFlag := true,
      activeTag := { s.activeTag with
        childrenParseType := some ParseType.PROPERTY,
        subject := some r.1,
        predicate := none } }
  else if v = "Collection" then
    .ok { s with
      parseTypeFlag := true,
      subSubjectValueBlank := false,
      activeTag := { s.activeTag with
        hadChildren := true,
        childrenCollectionSubject := s.activeTag.subject,
        childrenCollectionPredicate := s.activeTag.predicate } }
  else if v = "Literal" then
    .ok { s with
      parseTypeFlag := true,
      activeTag := { s.activeTag with
        childrenTagsToString := true,
        childrenStringTags := some [] } }
  else .ok s

/-- The `rdf:ID` case (lines 600-604): validate, resolve `#value`, claim. -/
def propAttrId (cfg : Config) (s : PropAttrState) (v : String) :
    Except String PropAttrState :=
  match validateNcname v with
  | .error e => .error e
  | .ok _ =>
    match valueToUri cfg ("#" ++ v) s.activeTag with
    | .error e => .error e
    | .ok rid =>
      match claimNodeId cfg s.st rid with
      | .error e => .error e
      | .ok st' => .ok { s with
          st := st',
          activeTag := { s.activeTag with reifiedStatementId := some rid } }

/-- The property-shorthand fallthrough (lines 613-627). -/
def propAttrShorthand (s : PropAttrState) (ex : Expanded) (v : String) :
    Except String PropAttrState :=
  if ¬(ex.pfx = "xml") ∧ ¬(ex.pfx = "xmlns") ∧ ¬(ex.uri = "") then
    if s.parseTypeFlag ∨ s.activeTag.datatype.isSome then
      .error "Found illegal rdf properties on property element with attribute"
    else match uriToNamedNode (ex.uri ++ ex.localName) with
      | .error e => .error e
      | .ok p => .ok { s with
          activeTag := { s.activeTag with hadChildren := true },
          attributedProperty := true,
          predicates := s.predicates ++ [p],
          objects := s.objects ++
            [mkLiteral v s.activeTag.datatype s.activeTag.language] }
  else .ok s

/-- One iteration of the attribute loop of `onTagProperty` (lines 513-628). -/
def onTagPropertyAttr (cfg : Config) (s : PropAttrState) (kv : String × String) :
    Except String PropAttrState :=
  let v := kv.2
  match expandPrefixedTerm kv.1 (s.activeTag.ns.getD []) with
  | .error e => .error e
  | .ok ex =>
    if ex.uri = RDF_NS ∧ ex.localName = "resource" then propAttrResource s v
    else if ex.uri = RDF_NS ∧ ex.localName = "datatype" then propAttrDatatype cfg s v
    else if ex.uri = RDF_NS ∧ ex.localName = "nodeID" then propAttrNodeId s v
    else if ex.uri = RDF_NS ∧ ex.localName = "bagID" then
      .error "rdf:bagID is not supported."
    else if ex.uri = RDF_NS ∧ ex.localName = "parseType" then propAttrParseType cfg s v
    else if ex.uri = RDF_NS ∧ ex.localName = "ID" then propAttrId cfg s v
    else if (¬(ex.uri = RDF_NS)) ∧ ex.uri = XML_NS ∧ ex.localName = "lang" then
      .ok { s with activeTag := { s.activeTag with
        language := if v = "" then none else some (String.mk (v.toList.map Char.toLower)) } }
    else propAttrShorthand s ex v

/-- The attribute loop of `onTagProperty`, iterating in attribute order. -/
def propAttrLoop (cfg : Config) (s : PropAttrState) :
    List (String × String) → Except String PropAttrState
  | [] => .ok s
  | kv :: rest =>
    match onTagPropertyAttr cfg s kv with
    | .ok s' => propAttrLoop cfg s' rest
    | .error e => .error e

/-- Predicate computation of `onTagProperty` (lines 486-494): `rdf:li` is
rewritten to `rdf:_n` using — and post-incrementing — the parent's
counter. -/
def propPredicate (tagExpanded : Expanded) (parentTag : IActiveTag) :
    Except String (Term × IActiveTag) :=
  if tagExpanded.uri = RDF_NS ∧ tagExpanded.localName = "li" then
    let c := match parentTag.listItemCounter with
      | some n => if n = 0 then 1 else n
      | none => 1
    match uriToNamedNode (tagExpanded.uri ++ "_" ++ toString c) with
    | .error e => .error e
    | .ok p => .ok (p, { parentTag with listItemCounter := some (c + 1) })
  else
    match uriToNamedNode (tagExpanded.uri ++ tagExpanded.localName) with
    | .error e => .error e
    | .ok p => .ok (p, parentTag)

/-- `RdfXmlParser.onTagProperty` (property elements).  Returns the updated
parser state, the finished active tag, and the (possibly mutated) parent
tag. -/
def onTagProperty (cfg : Config) (st : ParserState) (tagName : String)
    (attributes : List (String × String)) (activeTag0 : IActiveTag)
    (parentTag : IActiveTag) :
    Except String (ParserState × IActiveTag × IActiveTag) :=
  match expandPrefixedTerm tagName (activeTag0.ns.getD []) with
  | .error e => .error e
  | .ok tagExpanded =>
    let activeTag1 := { activeTag0 with
      childrenParseType := some ParseType.RESOURCE,
      subject := parentTag.subject }
    match propPredicate tagExpanded parentTag with
    | .error e => .error e
    | .ok (pred, parentTag1) =>
      if tagExpanded.uri = RDF_NS ∧
          FORBIDDEN_PROPERTY_ELEMENTS.contains tagExpanded.localName then
        .error ("Illegal property element name: " ++ tagExpanded.localName)
      else
        let activeTag2 := { activeTag1 with
          predicate := some pred,
          predicateSubPredicates := [],
          predicateSubObjects := [] }
        match propAttrLoop cfg { st := st, activeTag := activeTag2 } attributes with
        | .error e => .error e
        | .ok s =>
          -- create the sub-subject value after all attributes have been processed
          match s.activeSubSubjectValue with
          | some v =>
            let subjectParent := s.activeTag.subject.getD Term.defaultGraph
            match (if s.subSubjectValueBlank then .ok (Term.blankNode v)
                   else valueToUri cfg v s.activeTag : Except String Term) with
            | .error e => .error e
            | .ok newSubj =>
              let st1 := emitTriple cfg s.st subjectParent
                (s.activeTag.predicate.getD Term.defaultGraph) newSubj
                s.activeTag.reifiedStatementId
              let st2 := emitDeferred cfg st1 newSubj (s.predicates.zip s.objects)
              .ok (st2, { s.activeTag with subject := some newSubj, predicateEmitted := true },
                   parentTag1)
          | none =>
            if s.subSubjectValueBlank then
              .ok (s.st, { s.activeTag with
                     predicateSubPredicates := s.predicates,
                     predicateSubObjects := s.objects,
                     predicateEmitted := false },
                   parentTag1)
            else .ok (s.st, s.activeTag, parentTag1)

/-- Replace the top frame of the stack (the head of the list). -/
def updateTop (st : ParserState) (t : IActiveTag) : ParserState :=
  match st.activeTagStack with
  | [] => st
  | _ :: rest => { st with activeTagStack := t :: rest }

/-- `RdfXmlParser.onText`: in XMLLiteral-capture mode append to the buffer;
otherwise, when the top frame has a predicate, store the text (overwriting
any previous value); otherwise do nothing. -/
def onText (st : ParserState) (text : String) : ParserState :=
  match st.activeTagStack with
  | [] => st
  | t :: _ =>
    match t.childrenStringTags with
    | some l => updateTop st { t with childrenStringTags := some (l ++ [text]) }
    | none =>
      if t.predicate.isSome then updateTop st { t with text := some text }
      else st

/-- Concatenation used for `childrenStringTags.join('')`. -/
def strJoin (l : List String) : String := l.foldl (fun a b => a ++ b) ""

/-- Final emission step of `onCloseTag` (lines 730-748): terminate a
collection, emit the text literal, or emit the remaining properties on an
anonymous property element. -/
def closeFinalize (cfg : Config) (st2 : ParserState) (popped3 : IActiveTag) : ParserState :=
  match popped3.childrenCollectionSubject with
  | some ccs =>
    -- terminate the rdf:List
    emitTriple cfg st2 ccs (popped3.childrenCollectionPredicate.getD Term.defaultGraph)
      (Term.namedNode (RDF_NS ++ "nil")) popped3.reifiedStatementId
  | none =>
    if popped3.predicate.isSome then
      if ¬popped3.hadChildren ∧ popped3.childrenParseType ≠ some ParseType.PROPERTY then
        -- property element contains text
        emitTriple cfg st2 (popped3.subject.getD Term.defaultGraph)
          (popped3.predicate.getD Term.defaultGraph)
          (mkLiteral (popped3.text.getD "") popped3.datatype popped3.language)
          popped3.reifiedStatementId
      else if ¬popped3.predicateEmitted then
        -- emit remaining properties on an anonymous property element
        let r := mintBlank st2
        let st3 := emitTriple cfg r.2 (popped3.subject.getD Term.defaultGraph)
          (popped3.predicate.getD Term.defaultGraph) r.1 popped3.reifiedStatementId
        emitDeferred cfg st3 r.1
          (popped3.predicateSubPredicates.zip popped3.predicateSubObjects)
      else st2
    else st2

/-- `RdfXmlParser.onCloseTag`: pop the top frame; append a pending closing
tag to the shared XMLLiteral buffer (written back to the sharing parent);
finalize XMLLiteral capture; terminate a collection; or emit the pending
property value. -/
def onCloseTag (cfg : Config) (st : ParserState) : ParserState :=
  match st.activeTagStack with
  | [] => st
  | popped0 :: rest =>
    let st0 : ParserState := { st with activeTagStack := rest }
    -- if we were converting a tag to a string and it was not self-closing
    let closed : IActiveTag × ParserState :=
      match popped0.childrenStringEmitClosingTag with
      | some ct =>
        let buf := popped0.childrenStringTags.getD [] ++ [ct]
        let popped1 := { popped0 with childrenStringTags := some buf }
        -- the buffer is shared by reference with the parent frame
        let st1 :=
          match rest with
          | [] => st0
          | p :: _ =>
            if p.childrenStringTags.isSome then
              updateTop st0 { p with childrenStringTags := some buf }
            else st0
        (popped1, st1)
      | none => (popped0, st0)
    let popped2 := closed.1
    let st2 := closed.2
    -- set the literal value if we were collecting XML tags to string
    let popped3 :=
      if popped2.childrenTagsToString then
        { popped2 with
          datatype := some (RDF_NS ++ "XMLLiteral"),
          text := some (strJoin (popped2.childrenStringTags.getD [])),
          hadChildren := false }
      else popped2
    closeFinalize cfg st2 popped3

/-- Serialize the attributes of a tag captured into an XMLLiteral buffer. -/
def serializeAttrs : List (String × String) → String
  | [] => ""
  | (k, v) :: rest => " " ++ k ++ "=\x22" ++ v ++ "\x22" ++ serializeAttrs rest

/-- `RdfXmlParser.onTag`: the open-tag driver.  Marks the parent as having
children, captures the tag as a string in XMLLiteral mode, or else builds
the new frame (inheriting language and base IRI) and dispatches to the
resource- or property-mode handler according to the parent's
`childrenParseType`. -/
def onTag (cfg : Config) (st : ParserState) (name : String)
    (attributes : List (String × String)) : Except String ParserState :=
  match st.activeTagStack with
  | [] =>
    let activeTag0 : IActiveTag :=
      { baseIRI := cfg.baseIRI, ns := some (parseNamespace attributes none) }
    match onTagResource cfg st name attributes activeTag0 none true with
    | .error e => .error e
    | .ok (st', t, _) => .ok { st' with activeTagStack := [t] }
  | parentTag0 :: rest =>
    let currentParseType := parentTag0.childrenParseType
    let parentTag := { parentTag0 with hadChildren := true }
    match parentTag.childrenStringTags with
    | some buf =>
      -- convert this tag to a string and push a placeholder frame
      let tagString := "<" ++ name ++ serializeAttrs attributes ++ ">"
      let buf' := buf ++ [tagString]
      let parentTag' := { parentTag with childrenStringTags := some buf' }
      let placeholder : IActiveTag :=
        { childrenStringTags := some buf',
          childrenStringEmitClosingTag := some ("</" ++ name ++ ">") }
      .ok { st with activeTagStack := placeholder :: parentTag' :: rest }
    | none =>
      let activeTag0 : IActiveTag :=
        { language := parentTag.language,
          baseIRI := parentTag.baseIRI,
          ns := some (parseNamespace attributes (some parentTag)) }
      if currentParseType = some ParseType.RESOURCE then
        match onTagResource cfg st name attributes activeTag0 (some parentTag) false with
        | .error e => .error e
        | .ok (st', t, pt') =>
          .ok { st' with activeTagStack := t :: (pt'.getD parentTag) :: rest }
      else
        match onTagProperty cfg st name attributes activeTag0 parentTag with
        | .error e => .error e
        | .ok (st', t, pt') =>
          .ok { st' with activeTagStack := t :: pt' :: rest }

/-- A SAX event consumed by the parser core. -/
inductive SaxEvent where
  | openTag (name : String) (attributes : List (String × String))
  | text (value : String)
  | closeTag
deriving DecidableEq, Repr

/-- Process one SAX event. -/
def step (cfg : Config) (st : ParserState) : SaxEvent → Except String ParserState
  | .openTag n a => onTag cfg st n a
  | .text t => .ok (onText st t)
  | .closeTag => .ok (onCloseTag cfg st)

/-- Process a sequence of SAX events; the first error aborts the parse. -/
def runEvents (cfg : Config) : List SaxEvent → ParserState → Except String ParserState
  | [], st => .ok st
  | e :: rest, st =>
    match step cfg st e with
    | .ok st' => runEvents cfg rest st'
    | .error m => .error m

/-- The parser's initial state. -/
def initialState : ParserState := {}

/-- Run a whole event sequence from the initial state. -/
def parseEvents (cfg : Config) (evts : List SaxEvent) : Except String ParserState :=
  runEvents cfg evts initialState

/-! Concrete instances used to evaluate the machine on whole documents.
`simpleResolve` is one concrete choice for the external `resolve` function
(absolute references are returned as-is, relative ones are appended to the
base), sufficient for the inputs below. -/

/-- A concrete external IRI resolver for whole-document runs. -/
def simpleResolve (value base : String) : String :=
  if value = "" then base
  else if value.toList.contains ':' then value
  else base ++ value

/-- A concrete configuration with base IRI `http://b/`. -/
def testCfg : Config := { baseIRI := "http://b/", resolve := simpleResolve }

/-- `testCfg` with `allowDuplicateRdfIds` enabled. -/
def testCfgDup : Config :=
  { baseIRI := "http://b/", allowDuplicateRdfIds := true, resolve := simpleResolve }

/-- The innermost truthy default-namespace binding of a stack given
innermost-first (the value `expandPrefixedTerm`'s scan falls back to). -/
def innermostTruthyDefault : List (List (String × String)) → Option String
  | [] => none
  | m :: rest => if strTruthy (jsGet m "") then jsGet m "" else innermostTruthyDefault rest

/-- No attribute of the root tag expands to `xml:lang` or `xml:base`. -/
def noLangBase (attrs : List (String × String)) : Bool :=
  attrs.all fun kv =>
    match expandPrefixedTerm kv.1 (parseNamespace attrs none) with
    | .ok e =>
      if e.uri = XML_NS ∧ (e.localName = "lang" ∨ e.localName = "base") then false else true
    | .error _ => true

/-- The active-tag stack stays nonempty before every event of the list (and
at its end) along a run. -/
def stackAlwaysNonempty (cfg : Config) (st : ParserState) : List SaxEvent → Bool
  | [] => !st.activeTagStack.isEmpty
  | e :: rest =>
    !st.activeTagStack.isEmpty &&
    (match step cfg st e with
     | .ok st' => stackAlwaysNonempty cfg st' rest
     | .error _ => true)

/-- The base IRI and language of the bottom (root) frame of the stack. -/
def bottomBaseLang (l : List IActiveTag) : Option (String × Option String) :=
  l.getLast?.map fun f => (f.baseIRI, f.language)

/-! Concrete documents (event sequences) used by individual claims. -/

/-- A document whose property-element character content arrives as one text
event. -/
def textOneChunkEvents : List SaxEvent :=
  [ .openTag "rdf:RDF" [("xmlns:rdf", RDF_NS), ("xmlns:ex", "http://e/")],
    .openTag "rdf:Description" [("rdf:about", "http://e/a")],
    .openTag "ex:p" [],
    .text "ab",
    .closeTag, .closeTag, .closeTag ]

/-- The same document with the character content split into two text
events. -/
def textSplitEvents : List SaxEvent :=
  [ .openTag "rdf:RDF" [("xmlns:rdf", RDF_NS), ("xmlns:ex", "http://e/")],
    .openTag "rdf:Description" [("rdf:about", "http://e/a")],
    .openTag "ex:p" [],
    .text "a", .text "b",
    .closeTag, .closeTag, .closeTag ]

/-- A property frame awaiting text. -/
def predFrame : IActiveTag :=
  { subject := some (Term.namedNode "http://e/a"),
    predicate := some (Term.namedNode "http://e/p"),
    baseIRI := "http://b/" }

/-- A state whose top frame is a property frame awaiting text. -/
def textFrameState : ParserState := { activeTagStack := [predFrame] }

/-- A document with an `rdf:ID`-reified property element. -/
def reifEvents : List SaxEvent :=
  [ .openTag "rdf:RDF" [("xmlns:rdf", RDF_NS), ("xmlns:ex", "http://e/")],
    .openTag "rdf:Description" [("rdf:about", "http://e/s")],
    .openTag "ex:p" [("rdf:ID", "r1")],
    .text "v",
    .closeTag, .closeTag, .closeTag ]

/-- The expected quads of `reifEvents`: the asserted triple followed by the
four reification quads. -/
def reifExpected : List Quad :=
  [ ⟨.namedNode "http://e/s", .namedNode "http://e/p", .literal "v" none none, .defaultGraph⟩,
    ⟨.namedNode "http://b/#r1", .namedNode (RDF_NS ++ "type"),
      .namedNode (RDF_NS ++ "Statement"), .defaultGraph⟩,
    ⟨.namedNode "http://b/#r1", .namedNode (RDF_NS ++ "subject"),
      .namedNode "http://e/s", .defaultGraph⟩,
    ⟨.namedNode "http://b/#r1", .namedNode (RDF_NS ++ "predicate"),
      .namedNode "http://e/p", .defaultGraph⟩,
    ⟨.namedNode "http://b/#r1", .namedNode (RDF_NS ++ "object"),
      .literal "v" none none, .defaultGraph⟩ ]

/-- A document with two `rdf:ID="a"` occurrences under different
`xml:base` values. -/
def dupIdEvents : List SaxEvent :=
  [ .openTag "rdf:RDF" [("xmlns:rdf", RDF_NS)],
    .openTag "rdf:Description" [("xml:base", "http://x/"), ("rdf:ID", "a")], .closeTag,
    .openTag "rdf:Description" [("xml:base", "http://y/"), ("rdf:ID", "a")], .closeTag,
    .closeTag ]

/-- A document whose root element is `rdf:li`. -/
def rootLiEvents : List SaxEvent :=
  [ .openTag "rdf:li" [("xmlns:rdf", RDF_NS)], .closeTag ]

/-- A document with `rdf:about=""` followed by `rdf:nodeID="x"` on the same
node element. -/
def emptyAboutEvents : List SaxEvent :=
  [ .openTag "rdf:RDF" [("xmlns:rdf", RDF_NS)],
    .openTag "rdf:Description" [("rdf:about", ""), ("rdf:nodeID", "x")],
    .closeTag, .closeTag ]

/-- A document with `rdf:datatype` followed by an unknown
`rdf:parseType` value on the same property element. -/
def unknownParseTypeEvents : List SaxEvent :=
  [ .openTag "rdf:RDF" [("xmlns:rdf", RDF_NS), ("xmlns:ex", "http://e/")],
    .openTag "rdf:Description" [("rdf:about", "http://e/s")],
    .openTag "ex:p" [("rdf:datatype", "http://e/d"), ("rdf:parseType", "Foo")],
    .closeTag, .closeTag, .closeTag ]

/-- A document whose root element carries `xml:lang`. -/
def rootLangEvents : List SaxEvent :=
  [ .openTag "rdf:RDF" [("xmlns:rdf", RDF_NS), ("xml:lang", "en")] ]

/-- The root open-tag of a plain typed node element. -/
def typedRootOpen : SaxEvent :=
  .openTag "ex:Thing" [("xmlns:ex", "http://e/"), ("rdf:about", "http://e/a"), ("xmlns:rdf", RDF_NS)]

/-- The state reached after `typedRootOpen` (used as a witness input). -/
def typedRootState : ParserState :=
  match step testCfg initialState typedRootOpen with
  | .ok st => st
  | .error _ => initialState

/-- The state reached after opening a bare `rdf:RDF` root element. -/
def rdfRootState : ParserState :=
  match step testCfg initialState (.openTag "rdf:RDF" [("xmlns:rdf", RDF_NS)]) with
  | .ok st => st
  | .error _ => initialState

/-- A state whose node-ID registry already holds `http://b/#a`. -/
def claimedIdState : ParserState := { nodeIds := ["http://b/#a"] }

/-- A state whose top frame is in XMLLiteral capture mode. -/
def captureFrameState : ParserState :=
  { activeTagStack := [ { childrenStringTags := some ["a"], baseIRI := "http://b/" } ] }

/-- An active tag carrying only an `rdf` namespace binding. -/
def rdfNsTag : IActiveTag := { ns := some [[("rdf", RDF_NS)]] }

/-! ## Shared helper lemmas -/

theorem resCreateSubject_none (cfg : Config) (st : ParserState) (s : ResAttrState)
    (h : s.activeSubjectValue = none) :
    resCreateSubject cfg st s = .ok (s.activeTag, st) := by
  unfold resCreateSubject
  rw [h]

theorem resForceSubject_none (t1 : IActiveTag) (st1 : ParserState) (h : t1.subject = none) :
    resForceSubject t1 st1 =
      ((mintBlank st1).1, { t1 with subject := some (mintBlank st1).1 }, (mintBlank st1).2) := by
  unfold resForceSubject
  rw [h]

theorem uriToNamedNode_ok (u : String) (t : Term) (h : uriToNamedNode u = .ok t) :
    t = Term.namedNode u := by
  unfold uriToNamedNode at h
  split at h
  · cases h; rfl
  · cases h

theorem onTagResourceAttr_root_inv (cfg : Config) (s s1 : ResAttrState) (kv : String × String)
    (h : onTagResourceAttr cfg false s kv = .ok s1) :
    s1.activeSubjectValue = s.activeSubjectValue ∧
    s1.claimSubjectNodeId = s.claimSubjectNodeId ∧
    s1.explicitType = s.explicitType ∧
    s1.subjectValueBlank = s.subjectValueBlank ∧
    s1.activeTag.subject = s.activeTag.subject := by
  unfold onTagResourceAttr at h
  cases hexp : expandPrefixedTerm kv.1 (s.activeTag.ns.getD []) with
  | error e => rw [hexp] at h; cases h
  | ok ex =>
    rw [hexp] at h
    simp only [Bool.false_eq_true, false_and, if_false, not_false_iff, true_and] at h
    split at h
    · cases h; simp
    · split at h
      · cases h; simp
      · split at h
        · split at h
          · cases h
          · cases h; simp
        · cases h; simp

theorem resAttrLoop_root_inv (cfg : Config) (attrs : List (String × String))
    (s s' : ResAttrState) (h : resAttrLoop cfg false s attrs = .ok s') :
    s'.activeSubjectValue = s.activeSubjectValue ∧
    s'.claimSubjectNodeId = s.claimSubjectNodeId ∧
    s'.explicitType = s.explicitType ∧
    s'.subjectValueBlank = s.subjectValueBlank ∧
    s'.activeTag.subject = s.activeTag.subject := by
  induction attrs generalizing s with
  | nil =>
    rw [resAttrLoop] at h
    cases h
    simp
  | cons kv rest ih =>
    rw [resAttrLoop] at h
    cases hstep : onTagResourceAttr cfg false s kv with
    | error e => rw [hstep] at h; cases h
    | ok s1 =>
      rw [hstep] at h
      have h1 := onTagResourceAttr_root_inv cfg s s1 kv hstep
      have h2 := ih s1 h
      exact ⟨h2.1.trans h1.1, h2.2.1.trans h1.2.1, h2.2.2.1.trans h1.2.2.1,
             h2.2.2.2.1.trans h1.2.2.2.1, h2.2.2.2.2.trans h1.2.2.2.2⟩

theorem onTagResource_root (cfg : Config) (st st2 : ParserState) (name : String)
    (attrs : List (String × String)) (activeTag0 : IActiveTag) (t : IActiveTag)
    (pt : Option IActiveTag)
    (hsubj : activeTag0.subject = none)
    (h : onTagResource cfg st name attrs activeTag0 none true = .ok (st2, t, pt)) :
    ∃ e, expandPrefixedTerm name (activeTag0.ns.getD []) = .ok e ∧
      t.subject = some (Term.blankNode (freshLabel st.blankNodeCounter)) ∧
      st2.output = st.output ++
        (if e.uri = RDF_NS ∧ (e.localName = "RDF" ∨ e.localName = "Description") then []
         else [⟨Term.blankNode (freshLabel st.blankNodeCounter),
               Term.namedNode (RDF_NS ++ "type"),
               Term.namedNode (e.uri ++ e.localName), cfg.defaultGraph⟩]) ∧
      st2.nodeIds = st.nodeIds := by
  unfold onTagResource at h
  cases hexp : expandPrefixedTerm name (activeTag0.ns.getD []) with
  | error e => rw [hexp] at h; cases h
  | ok ex =>
    rw [hexp] at h
    refine ⟨ex, rfl, ?_⟩
    simp only [not_true, and_false, false_and, if_false, Option.isSome_none] at h
    split at h
    case _ e heq => cases h
    case _ s hloop =>
      have hinv := resAttrLoop_root_inv cfg attrs _ s hloop
      have hsv : s.activeSubjectValue = none := by rw [hinv.1]
      have hts : s.activeTag.subject = none := by
        rw [hinv.2.2.2.2]
        split <;> simp [hsubj]
      rw [resCreateSubject_none cfg st s hsv] at h
      dsimp only at h
      rw [resForceSubject_none s.activeTag st hts] at h
      dsimp only at h
      by_cases hP : ex.uri = RDF_NS ∧ (ex.localName = "RDF" ∨ ex.localName = "Description")
      · rw [if_neg (by simp [hP])] at h
        simp only [Except.ok.injEq, Prod.mk.injEq] at h
        obtain ⟨h1, h2, h3⟩ := h
        subst h1 h2 h3
        simp [hP, mintBlank]
      · rw [if_pos (by simp [hP])] at h
        cases hu : uriToNamedNode (ex.uri ++ ex.localName) with
        | error e => rw [hu] at h; cases h
        | ok ty =>
          rw [hu] at h
          dsimp only at h
          simp only [Except.ok.injEq, Prod.mk.injEq] at h
          obtain ⟨h1, h2, h3⟩ := h
          subst h1 h2 h3
          have hty := uriToNamedNode_ok _ _ hu
          subst hty
          simp [hP, mintBlank, emitTriple]

theorem claimNodeId_mono (cfg : Config) (st st' : ParserState) (term : Term)
    (h : claimNodeId cfg st term = .ok st') : st.nodeIds ⊆ st'.nodeIds := by
  unfold claimNodeId at h
  split at h
  · cases h; exact List.Subset.refl _
  · split at h
    · cases h
    · cases h; exact List.subset_append_left _ _

theorem emitTriple_nodeIds (cfg : Config) (st : ParserState) (s p o : Term)
    (r : Option Term) : (emitTriple cfg st s p o r).nodeIds = st.nodeIds := by
  unfold emitTriple
  cases r <;> rfl

theorem mintBlank_nodeIds (st : ParserState) : (mintBlank st).2.nodeIds = st.nodeIds := rfl

theorem emitShorthand_nodeIds (cfg : Config) (st : ParserState) (subj : Term)
    (t : IActiveTag) (r : Option Term) (l : List (Term × String)) :
    (emitShorthand cfg st subj t r l).nodeIds = st.nodeIds := by
  induction l generalizing st with
  | nil => rfl
  | cons po rest ih =>
    obtain ⟨p, o⟩ := po
    rw [emitShorthand, ih]
    exact emitTriple_nodeIds ..

theorem emitDeferred_nodeIds (cfg : Config) (st : ParserState) (subj : Term)
    (l : List (Term × Term)) :
    (emitDeferred cfg st subj l).nodeIds = st.nodeIds := by
  induction l generalizing st with
  | nil => rfl
  | cons po rest ih =>
    obtain ⟨p, o⟩ := po
    rw [emitDeferred, ih]
    exact emitTriple_nodeIds ..

theorem propAttrResource_mono (s s1 : PropAttrState) (v : String)
    (h : propAttrResource s v = .ok s1) : s.st.nodeIds ⊆ s1.st.nodeIds := by
  unfold propAttrResource at h
  split at h
  · cases h
  · split at h
    · cases h
    · cases h; exact List.Subset.refl _

theorem propAttrDatatype_mono (cfg : Config) (s s1 : PropAttrState) (v : String)
    (h : propAttrDatatype cfg s v = .ok s1) : s.st.nodeIds ⊆ s1.st.nodeIds := by
  unfold propAttrDatatype at h
  split at h
  · cases h
  · split at h
    · cases h
    · split at h
      · cases h
      · cases h; exact List.Subset.refl _

theorem propAttrNodeId_mono (s s1 : PropAttrState) (v : String)
    (h : propAttrNodeId s v = .ok s1) : s.st.nodeIds ⊆ s1.st.nodeIds := by
  unfold propAttrNodeId at h
  split at h
  · cases h
  · split at h
    · cases h
    · split at h
      · cases h
      · split at h
        · cases h
        · cases h; exact List.Subset.refl _

theorem propAttrParseType_mono (cfg : Config) (s s1 : PropAttrState) (v : String)
    (h : propAttrParseType cfg s v = .ok s1) : s.st.nodeIds ⊆ s1.st.nodeIds := by
  unfold propAttrParseType at h
  split at h
  · cases h
  · split at h
    · cases h
    · split at h
      · cases h
      · split at h
        · cases h
          simp only [emitTriple_nodeIds, mintBlank_nodeIds]
          exact List.Subset.refl _
        · split at h
          · cases h; exact List.Subset.refl _
          · split at h
            · cases h; exact List.Subset.refl _
            · cases h; exact List.Subset.refl _

theorem propAttrId_mono (cfg : Config) (s s1 : PropAttrState) (v : String)
    (h : propAttrId cfg s v = .ok s1) : s.st.nodeIds ⊆ s1.st.nodeIds := by
  unfold propAttrId at h
  split at h
  · cases h
  · split at h
    · cases h
    · split at h
      · cases h
      · cases h
        exact claimNodeId_mono _ _ _ _ (by assumption)

theorem propAttrShorthand_mono (s s1 : PropAttrState) (ex : Expanded) (v : String)
    (h : propAttrShorthand s ex v = .ok s1) : s.st.nodeIds ⊆ s1.st.nodeIds := by
  unfold propAttrShorthand at h
  split at h
  · split at h
    · cases h
    · split at h
      · cases h
      · cases h; exact List.Subset.refl _
  · cases h; exact List.Subset.refl _

theorem onTagPropertyAttr_mono (cfg : Config) (s s1 : PropAttrState)
    (kv : String × String) (h : onTagPropertyAttr cfg s kv = .ok s1) :
    s.st.nodeIds ⊆ s1.st.nodeIds := by
  unfold onTagPropertyAttr at h
  cases hexp : expandPrefixedTerm kv.1 (s.activeTag.ns.getD []) with
  | error e => rw [hexp] at h; cases h
  | ok ex =>
    rw [hexp] at h
    dsimp only at h
    split at h
    · exact propAttrResource_mono _ _ _ h
    · split at h
      · exact propAttrDatatype_mono _ _ _ _ h
      · split at h
        · exact propAttrNodeId_mono _ _ _ h
        · split at h
          · cases h
          · split at h
            · exact propAttrParseType_mono _ _ _ _ h
            · split at h
              · exact propAttrId_mono _ _ _ _ h
              · split at h
                · cases h; exact List.Subset.refl _
                · exact propAttrShorthand_mono _ _ _ _ h

theorem propAttrLoop_mono (cfg : Config) (attrs : List (String × String))
    (s s' : PropAttrState) (h : propAttrLoop cfg s attrs = .ok s') :
    s.st.nodeIds ⊆ s'.st.nodeIds := by
  induction attrs generalizing s with
  | nil => rw [propAttrLoop] at h; cases h; exact List.Subset.refl _
  | cons kv rest ih =>
    rw [propAttrLoop] at h
    cases hstep : onTagPropertyAttr cfg s kv with
    | error e => rw [hstep] at h; cases h
    | ok s1 =>
      rw [hstep] at h
      exact (onTagPropertyAttr_mono cfg s s1 kv hstep).trans (ih s1 h)


theorem resCreateSubject_mono (cfg : Config) (st : ParserState) (s : ResAttrState)
    (t1 : IActiveTag) (st1 : ParserState) (h : resCreateSubject cfg st s = .ok (t1, st1)) :
    st.nodeIds ⊆ st1.nodeIds := by
  unfold resCreateSubject at h
  split at h
  · split at h
    · cases h
    · split at h
      · split at h
        · cases h
        · cases h; exact claimNodeId_mono _ _ _ _ (by assumption)
      · cases h; exact List.Subset.refl _
  · cases h; exact List.Subset.refl _

theorem resForceSubject_nodeIds (t1 : IActiveTag) (st1 : ParserState) :
    (resForceSubject t1 st1).2.2.nodeIds = st1.nodeIds := by
  unfold resForceSubject
  cases t1.subject <;> rfl

theorem resParentBlock_nodeIds (cfg : Config) (st3 : ParserState) (subj : Term)
    (t2 pt : IActiveTag) : (resParentBlock cfg st3 subj t2 pt).1.nodeIds = st3.nodeIds := by
  unfold resParentBlock
  split
  · split
    · simp only [emitTriple_nodeIds, mintBlank_nodeIds]
    · simp only [emitDeferred_nodeIds, emitTriple_nodeIds]
  · rfl

theorem resFinish_nodeIds (cfg : Config) (st6in : ParserState) (subj : Term)
    (t2 pt' : IActiveTag) (r : Option Term) (s : ResAttrState)
    (st' : ParserState) (t : IActiveTag) (p : Option IActiveTag)
    (h : resFinish cfg st6in subj t2 pt' r s = .ok (st', t, p)) :
    st'.nodeIds = st6in.nodeIds := by
  unfold resFinish at h
  split at h
  · split at h
    · cases h
    · cases h
      simp only [emitTriple_nodeIds, emitShorthand_nodeIds]
  · cases h
    simp only [emitShorthand_nodeIds]

theorem onTagResource_nodeIds_mono (cfg : Config) (st : ParserState) (name : String)
    (attrs : List (String × String)) (activeTag0 : IActiveTag) (parentTag : Option IActiveTag)
    (rootTag : Bool) (st2 : ParserState) (t : IActiveTag) (pt' : Option IActiveTag)
    (h : onTagResource cfg st name attrs activeTag0 parentTag rootTag = .ok (st2, t, pt')) :
    st.nodeIds ⊆ st2.nodeIds := by
  unfold onTagResource at h
  cases hexp : expandPrefixedTerm name (activeTag0.ns.getD []) with
  | error e => rw [hexp] at h; cases h
  | ok ex =>
    rw [hexp] at h
    dsimp only at h
    split at h
    · cases h
    · split at h
      case _ e heq => cases h
      case _ s hloop =>
        cases hcs : resCreateSubject cfg st s with
        | error e => rw [hcs] at h; cases h
        | ok pair =>
          obtain ⟨t1, st1⟩ := pair
          rw [hcs] at h
          dsimp only at h
          have hsub := resCreateSubject_mono cfg st s t1 st1 hcs
          split at h
          · cases h
          · rename_i st3 hat
            have h3 : st3.nodeIds = st1.nodeIds := by
              split at hat
              · split at hat
                · cases hat
                · cases hat
                  simp only [emitTriple_nodeIds, resForceSubject_nodeIds]
              · cases hat
                simp only [resForceSubject_nodeIds]
            split at h
            · -- parentTag = none
              cases h
              rw [h3]
              exact hsub
            · -- parentTag = some pt
              have h4 := resFinish_nodeIds _ _ _ _ _ _ _ _ _ _ h
              rw [h4, resParentBlock_nodeIds, h3]
              exact hsub


theorem onTagProperty_nodeIds_mono (cfg : Config) (st : ParserState) (name : String)
    (attrs : List (String × String)) (activeTag0 parentTag : IActiveTag)
    (st2 : ParserState) (t pt' : IActiveTag)
    (h : onTagProperty cfg st name attrs activeTag0 parentTag = .ok (st2, t, pt')) :
    st.nodeIds ⊆ st2.nodeIds := by
  unfold onTagProperty at h
  cases hexp : expandPrefixedTerm name (activeTag0.ns.getD []) with
  | error e => rw [hexp] at h; cases h
  | ok ex =>
    rw [hexp] at h
    dsimp only at h
    repeat' split at h
    all_goals try cases h
    all_goals
      try simp only [emitDeferred_nodeIds, emitTriple_nodeIds]
    all_goals exact propAttrLoop_mono _ _ _ _ (by assumption)

theorem onText_nodeIds (st : ParserState) (txt : String) :
    (onText st txt).nodeIds = st.nodeIds := by
  unfold onText updateTop
  repeat' split
  all_goals rfl

theorem closeFinalize_nodeIds (cfg : Config) (st2 : ParserState) (popped3 : IActiveTag) :
    (closeFinalize cfg st2 popped3).nodeIds = st2.nodeIds := by
  unfold closeFinalize
  repeat' split
  all_goals try rfl
  all_goals simp only [emitTriple_nodeIds, emitDeferred_nodeIds, mintBlank_nodeIds]

theorem onCloseTag_nodeIds (cfg : Config) (st : ParserState) :
    (onCloseTag cfg st).nodeIds = st.nodeIds := by
  unfold onCloseTag updateTop
  repeat' split
  all_goals try rfl
  all_goals rw [closeFinalize_nodeIds]

theorem onTag_nodeIds_mono (cfg : Config) (st st' : ParserState) (name : String)
    (attrs : List (String × String)) (h : onTag cfg st name attrs = .ok st') :
    st.nodeIds ⊆ st'.nodeIds := by
  unfold onTag at h
  split at h
  · -- empty stack: root resource
    dsimp only at h
    split at h
    · cases h
    · cases h
      dsimp only
      exact onTagResource_nodeIds_mono _ _ _ _ _ _ _ _ _ _ (by assumption)
  · -- parent exists
    dsimp only at h
    split at h
    · cases h; exact List.Subset.refl _
    · split at h
      · split at h
        · cases h
        · cases h
          dsimp only
          exact onTagResource_nodeIds_mono _ _ _ _ _ _ _ _ _ _ (by assumption)
      · split at h
        · cases h
        · cases h
          dsimp only
          exact onTagProperty_nodeIds_mono _ _ _ _ _ _ _ _ _ (by assumption)

theorem step_nodeIds_mono (cfg : Config) (st st' : ParserState) (e : SaxEvent)
    (h : step cfg st e = .ok st') : st.nodeIds ⊆ st'.nodeIds := by
  cases e with
  | openTag n a => exact onTag_nodeIds_mono cfg st st' n a h
  | text v =>
    cases h
    rw [onText_nodeIds]
    exact List.Subset.refl _
  | closeTag =>
    cases h
    rw [onCloseTag_nodeIds]
    exact List.Subset.refl _

theorem runEvents_nodeIds_mono (cfg : Config) (evts : List SaxEvent)
    (st st' : ParserState) (h : runEvents cfg evts st = .ok st') :
    st.nodeIds ⊆ st'.nodeIds := by
  induction evts generalizing st with
  | nil => rw [runEvents] at h; cases h; exact List.Subset.refl _
  | cons e rest ih =>
    rw [runEvents] at h
    cases hstep : step cfg st e with
    | error m => rw [hstep] at h; cases h
    | ok st1 =>
      rw [hstep] at h
      exact (step_nodeIds_mono cfg st st1 e hstep).trans (ih st1 h)

theorem bottomBaseLang_cons_cons (a b : IActiveTag) (l : List IActiveTag) :
    bottomBaseLang (a :: b :: l) = bottomBaseLang (b :: l) := by
  unfold bottomBaseLang
  rw [List.getLast?_cons_cons]

theorem bottomBaseLang_singleton (a : IActiveTag) :
    bottomBaseLang [a] = some (a.baseIRI, a.language) := rfl

theorem resParentBlock_parent (cfg : Config) (st3 : ParserState) (subj : Term)
    (t2 pt : IActiveTag) :
    (resParentBlock cfg st3 subj t2 pt).2.baseIRI = pt.baseIRI ∧
    (resParentBlock cfg st3 subj t2 pt).2.language = pt.language := by
  unfold resParentBlock
  repeat' split
  all_goals exact ⟨rfl, rfl⟩

theorem resFinish_parent (cfg : Config) (st6in : ParserState) (subj : Term)
    (t2 pt' : IActiveTag) (r : Option Term) (s : ResAttrState)
    (st' : ParserState) (t : IActiveTag) (p : Option IActiveTag)
    (h : resFinish cfg st6in subj t2 pt' r s = .ok (st', t, p)) : p = some pt' := by
  unfold resFinish at h
  split at h
  · split at h
    · cases h
    · cases h; rfl
  · cases h; rfl

theorem onTagResource_parent_langBase (cfg : Config) (st : ParserState) (name : String)
    (attrs : List (String × String)) (activeTag0 pt : IActiveTag) (rootTag : Bool)
    (st2 : ParserState) (t : IActiveTag) (pt' : Option IActiveTag)
    (h : onTagResource cfg st name attrs activeTag0 (some pt) rootTag = .ok (st2, t, pt')) :
    (pt'.getD pt).baseIRI = pt.baseIRI ∧ (pt'.getD pt).language = pt.language := by
  unfold onTagResource at h
  cases hexp : expandPrefixedTerm name (activeTag0.ns.getD []) with
  | error e => rw [hexp] at h; cases h
  | ok ex =>
    rw [hexp] at h
    dsimp only at h
    split at h
    · cases h
    · split at h
      case _ e heq => cases h
      case _ s hloop =>
        split at h
        case _ e heq => cases h
        case _ pr heq =>
          obtain ⟨t1, st1⟩ := pr
          try dsimp only at h
          split at h
          · cases h
          · rename_i st3 hat
            have hp := resFinish_parent _ _ _ _ _ _ _ _ _ _ h
            subst hp
            simp only [Option.getD_some]
            exact resParentBlock_parent ..

theorem propPredicate_parent (tagExpanded : Expanded) (parentTag pt1 : IActiveTag)
    (p : Term) (h : propPredicate tagExpanded parentTag = .ok (p, pt1)) :
    pt1.baseIRI = parentTag.baseIRI ∧ pt1.language = parentTag.language := by
  unfold propPredicate at h
  repeat' (first | split at h | dsimp only at h)
  all_goals try cases h
  all_goals exact ⟨rfl, rfl⟩

theorem onTagProperty_parent_langBase (cfg : Config) (st : ParserState) (name : String)
    (attrs : List (String × String)) (activeTag0 parentTag : IActiveTag)
    (st2 : ParserState) (t pt' : IActiveTag)
    (h : onTagProperty cfg st name attrs activeTag0 parentTag = .ok (st2, t, pt')) :
    pt'.baseIRI = parentTag.baseIRI ∧ pt'.language = parentTag.language := by
  unfold onTagProperty at h
  cases hexp : expandPrefixedTerm name (activeTag0.ns.getD []) with
  | error e => rw [hexp] at h; cases h
  | ok ex =>
    rw [hexp] at h
    dsimp only at h
    repeat' split at h
    all_goals try cases h
    all_goals exact propPredicate_parent _ _ _ _ (by assumption)


theorem emitTriple_stack (cfg : Config) (st : ParserState) (s p o : Term) (r : Option Term) :
    (emitTriple cfg st s p o r).activeTagStack = st.activeTagStack := by
  unfold emitTriple
  cases r <;> rfl

theorem emitDeferred_stack (cfg : Config) (st : ParserState) (subj : Term)
    (l : List (Term × Term)) :
    (emitDeferred cfg st subj l).activeTagStack = st.activeTagStack := by
  induction l generalizing st with
  | nil => rfl
  | cons po rest ih =>
    obtain ⟨p, o⟩ := po
    rw [emitDeferred, ih]
    exact emitTriple_stack ..

theorem closeFinalize_stack (cfg : Config) (st2 : ParserState) (popped3 : IActiveTag) :
    (closeFinalize cfg st2 popped3).activeTagStack = st2.activeTagStack := by
  unfold closeFinalize
  repeat' split
  all_goals try rfl
  all_goals simp only [emitTriple_stack, emitDeferred_stack, mintBlank]

theorem bottomBaseLang_replace_head (t t' : IActiveTag) (rest : List IActiveTag)
    (hb : t'.baseIRI = t.baseIRI) (hl : t'.language = t.language) :
    bottomBaseLang (t' :: rest) = bottomBaseLang (t :: rest) := by
  cases rest with
  | nil => simp [bottomBaseLang_singleton, hb, hl]
  | cons q rest2 => rw [bottomBaseLang_cons_cons, bottomBaseLang_cons_cons]

theorem step_bottomBaseLang (cfg : Config) (st st' : ParserState) (e : SaxEvent)
    (h : step cfg st e = .ok st') (h1 : st.activeTagStack ≠ [])
    (h2 : st'.activeTagStack ≠ []) :
    bottomBaseLang st'.activeTagStack = bottomBaseLang st.activeTagStack := by
  cases e with
  | text v =>
    cases h
    cases hs : st.activeTagStack with
    | nil => exact absurd hs h1
    | cons t rest =>
      unfold onText updateTop
      rw [hs]
      dsimp only
      split
      · exact bottomBaseLang_replace_head _ _ _ rfl rfl
      · split
        · exact bottomBaseLang_replace_head _ _ _ rfl rfl
        · rw [hs]
  | closeTag =>
    cases h
    cases hs : st.activeTagStack with
    | nil => exact absurd hs h1
    | cons p rest =>
      unfold onCloseTag updateTop at h2 ⊢
      rw [hs] at h2 ⊢
      dsimp only at h2 ⊢
      cases rest with
      | nil =>
        exfalso
        apply h2
        rw [closeFinalize_stack]
        split <;> dsimp only
      | cons q rest2 =>
        rw [closeFinalize_stack, bottomBaseLang_cons_cons]
        split
        · dsimp only
          split
          · exact bottomBaseLang_replace_head _ _ _ rfl rfl
          · rfl
        · rfl
  | openTag n a =>
    unfold step onTag at h
    cases hs : st.activeTagStack with
    | nil => exact absurd hs h1
    | cons p rest =>
      rw [hs] at h
      dsimp only at h
      split at h
      · -- XMLLiteral string mode
        cases h
        dsimp only
        rw [bottomBaseLang_cons_cons]
        exact bottomBaseLang_replace_head _ _ _ rfl rfl
      · split at h
        · -- resource mode
          split at h
          · cases h
          · cases h
            dsimp only
            rw [bottomBaseLang_cons_cons]
            have hpl := onTagResource_parent_langBase _ _ _ _ _ _ _ _ _ _ (by assumption)
            exact bottomBaseLang_replace_head _ _ _ hpl.1 hpl.2
        · -- property mode
          split at h
          · cases h
          · cases h
            dsimp only
            rw [bottomBaseLang_cons_cons]
            have hpl := onTagProperty_parent_langBase _ _ _ _ _ _ _ _ _ (by assumption)
            exact bottomBaseLang_replace_head _ _ _ hpl.1 hpl.2


theorem stackAlwaysNonempty_head (cfg : Config) (st : ParserState) (evts : List SaxEvent)
    (h : stackAlwaysNonempty cfg st evts = true) : st.activeTagStack ≠ [] := by
  cases evts with
  | nil =>
    rw [stackAlwaysNonempty] at h
    simpa [List.isEmpty_iff] using h
  | cons e rest =>
    rw [stackAlwaysNonempty] at h
    have := (Bool.and_eq_true _ _).mp h
    simpa [List.isEmpty_iff] using this.1

theorem runEvents_bottomBaseLang (cfg : Config) (evts : List SaxEvent)
    (st st' : ParserState) (h : runEvents cfg evts st = .ok st')
    (hne : stackAlwaysNonempty cfg st evts = true) :
    bottomBaseLang st'.activeTagStack = bottomBaseLang st.activeTagStack := by
  induction evts generalizing st with
  | nil =>
    rw [runEvents] at h
    cases h
    rfl
  | cons e rest ih =>
    rw [runEvents] at h
    rw [stackAlwaysNonempty] at hne
    have hne' := (Bool.and_eq_true _ _).mp hne
    cases hstep : step cfg st e with
    | error m => rw [hstep] at h; cases h
    | ok st1 =>
      rw [hstep] at h
      rw [hstep] at hne
      have hne1 : stackAlwaysNonempty cfg st1 rest = true := by
        have := (Bool.and_eq_true _ _).mp hne
        exact this.2
      have h1 : st.activeTagStack ≠ [] := by
        simpa [List.isEmpty_iff] using hne'.1
      have h2 : st1.activeTagStack ≠ [] := stackAlwaysNonempty_head cfg st1 rest hne1
      exact (ih st1 h hne1).trans (step_bottomBaseLang cfg st st1 e hstep h1 h2)

theorem noLangBase_spec (attrs : List (String × String)) (h : noLangBase attrs = true) :
    ∀ kv ∈ attrs, ∀ e, expandPrefixedTerm kv.1 (parseNamespace attrs none) = .ok e →
      ¬(e.uri = XML_NS ∧ (e.localName = "lang" ∨ e.localName = "base")) := by
  intro kv hm e hexp hP
  have hall := List.all_eq_true.mp h kv hm
  rw [hexp] at hall
  dsimp only at hall
  rw [if_pos hP] at hall
  cases hall

theorem onTagResourceAttr_langBase (cfg : Config)
    (s s1 : ResAttrState) (kv : String × String)
    (h : onTagResourceAttr cfg false s kv = .ok s1)
    (hkv : ∀ e, expandPrefixedTerm kv.1 (s.activeTag.ns.getD []) = .ok e →
      ¬(e.uri = XML_NS ∧ (e.localName = "lang" ∨ e.localName = "base"))) :
    s1.activeTag.language = s.activeTag.language ∧
    s1.activeTag.baseIRI = s.activeTag.baseIRI ∧
    s1.activeTag.ns = s.activeTag.ns := by
  unfold onTagResourceAttr at h
  cases hexp : expandPrefixedTerm kv.1 (s.activeTag.ns.getD []) with
  | error e => rw [hexp] at h; cases h
  | ok ex =>
    rw [hexp] at h
    have hex := hkv ex hexp
    simp only [Bool.false_eq_true, false_and, if_false, not_false_iff, true_and] at h
    split at h
    · rename_i hcond
      exact absurd ⟨hcond.1, Or.inl hcond.2⟩ hex
    · split at h
      · rename_i hcond1 hcond2
        exact absurd ⟨hcond2.1, Or.inr hcond2.2⟩ hex
      · split at h
        · split at h
          · cases h
          · cases h; exact ⟨rfl, rfl, rfl⟩
        · cases h; exact ⟨rfl, rfl, rfl⟩


theorem resAttrLoop_langBase (cfg : Config) (attrs : List (String × String))
    (s s' : ResAttrState) (h : resAttrLoop cfg false s attrs = .ok s')
    (hattrs : ∀ kv ∈ attrs, ∀ e,
      expandPrefixedTerm kv.1 (s.activeTag.ns.getD []) = .ok e →
      ¬(e.uri = XML_NS ∧ (e.localName = "lang" ∨ e.localName = "base"))) :
    s'.activeTag.language = s.activeTag.language ∧
    s'.activeTag.baseIRI = s.activeTag.baseIRI ∧
    s'.activeTag.ns = s.activeTag.ns := by
  induction attrs generalizing s with
  | nil =>
    rw [resAttrLoop] at h
    cases h
    exact ⟨rfl, rfl, rfl⟩
  | cons kv rest ih =>
    rw [resAttrLoop] at h
    cases hstep : onTagResourceAttr cfg false s kv with
    | error e => rw [hstep] at h; cases h
    | ok s1 =>
      rw [hstep] at h
      have h1 := onTagResourceAttr_langBase cfg s s1 kv hstep
        (fun e he => hattrs kv (List.mem_cons_self kv rest) e he)
      have h2 := ih s1 h (by
        intro kv2 hm e he
        rw [h1.2.2] at he
        exact hattrs kv2 (List.mem_cons_of_mem kv hm) e he)
      exact ⟨h2.1.trans h1.1, h2.2.1.trans h1.2.1, h2.2.2.trans h1.2.2⟩

theorem onTagResource_root_langBase (cfg : Config) (st st2 : ParserState) (name : String)
    (attrs : List (String × String)) (activeTag0 t : IActiveTag) (pt : Option IActiveTag)
    (hattrs : ∀ kv ∈ attrs, ∀ e,
      expandPrefixedTerm kv.1 (activeTag0.ns.getD []) = .ok e →
      ¬(e.uri = XML_NS ∧ (e.localName = "lang" ∨ e.localName = "base")))
    (hsubj : activeTag0.subject = none)
    (h : onTagResource cfg st name attrs activeTag0 none true = .ok (st2, t, pt)) :
    t.baseIRI = activeTag0.baseIRI ∧ t.language = activeTag0.language := by
  unfold onTagResource at h
  cases hexp : expandPrefixedTerm name (activeTag0.ns.getD []) with
  | error e => rw [hexp] at h; cases h
  | ok ex =>
    rw [hexp] at h
    simp only [not_true, and_false, false_and, if_false, Option.isSome_none] at h
    split at h
    case _ e heq => cases h
    case _ s hloop =>
      have hinv := resAttrLoop_root_inv cfg attrs _ s hloop
      have hlb := resAttrLoop_langBase cfg attrs _ s hloop (by
        intro kv hm e he
        apply hattrs kv hm e
        revert he
        split <;> (intro he; exact he))
      have hlb' : s.activeTag.language = activeTag0.language ∧
          s.activeTag.baseIRI = activeTag0.baseIRI := by
        refine ⟨hlb.1.trans ?_, hlb.2.1.trans ?_⟩ <;> (dsimp only; split <;> rfl)
      have hsv : s.activeSubjectValue = none := by rw [hinv.1]
      have hts : s.activeTag.subject = none := by
        rw [hinv.2.2.2.2]
        split <;> simp [hsubj]
      rw [resCreateSubject_none cfg st s hsv] at h
      dsimp only at h
      rw [resForceSubject_none s.activeTag st hts] at h
      dsimp only at h
      by_cases hP : ex.uri = RDF_NS ∧ (ex.localName = "RDF" ∨ ex.localName = "Description")
      · rw [if_neg (by simp [hP])] at h
        simp only [Except.ok.injEq, Prod.mk.injEq] at h
        obtain ⟨h1, h2, h3⟩ := h
        subst h2
        exact ⟨hlb'.2, hlb'.1⟩
      · rw [if_pos (by simp [hP])] at h
        cases hu : uriToNamedNode (ex.uri ++ ex.localName) with
        | error e => rw [hu] at h; cases h
        | ok ty =>
          rw [hu] at h
          dsimp only at h
          simp only [Except.ok.injEq, Prod.mk.injEq] at h
          obtain ⟨h1, h2, h3⟩ := h
          subst h2
          exact ⟨hlb'.2, hlb'.1⟩

theorem step_root_langBase (cfg : Config) (st st' : ParserState) (name : String)
    (attrs : List (String × String))
    (hstack : st.activeTagStack = [])
    (hlb : noLangBase attrs = true)
    (h : step cfg st (.openTag name attrs) = .ok st') :
    bottomBaseLang st'.activeTagStack = some (cfg.baseIRI, none) := by
  unfold step onTag at h
  rw [hstack] at h
  dsimp only at h
  cases hres : onTagResource cfg st name attrs
      { baseIRI := cfg.baseIRI, ns := some (parseNamespace attrs none) } none true with
  | error e => rw [hres] at h; cases h
  | ok r =>
    obtain ⟨st2, t, pt⟩ := r
    rw [hres] at h
    dsimp only at h
    have hbl := onTagResource_root_langBase cfg st st2 name attrs _ t pt
      (by
        intro kv hm e he
        exact noLangBase_spec attrs hlb kv hm e (by simpa using he))
      rfl hres
    simp only [Except.ok.injEq] at h
    subst h
    rw [bottomBaseLang_singleton, hbl.1, hbl.2]

theorem expandLookup_noBinding (pfx : String) (l : List (List (String × String)))
    (dflt : Option String) (h : ∀ m ∈ l, strTruthy (jsGet m pfx) = false) :
    (expandLookup pfx l dflt).1 = none ∧
    (if strTruthy (expandLookup pfx l dflt).2
     then (expandLookup pfx l dflt).2.getD "" else "") =
    (if strTruthy dflt then dflt.getD "" else (innermostTruthyDefault l).getD "") := by
  induction l generalizing dflt with
  | nil => simp [expandLookup, innermostTruthyDefault, strTruthy]
  | cons m rest ih =>
    have hm := h m (by simp)
    have hrest : ∀ m' ∈ rest, strTruthy (jsGet m' pfx) = false := fun m' hm' => h m' (by simp [hm'])
    rw [expandLookup]
    simp only [hm, Bool.false_eq_true, if_false]
    refine ⟨(ih _ hrest).1, ?_⟩
    rw [(ih _ hrest).2]
    by_cases hd : strTruthy dflt = true
    · simp [hd]
    · simp only [Bool.not_eq_true] at hd
      simp only [hd, Bool.false_eq_true, if_false, innermostTruthyDefault]
      by_cases hjm : strTruthy (jsGet m "") = true
      · simp [hjm]
      · simp only [Bool.not_eq_true] at hjm
        simp [hjm]

/-! ## Claim C1 -/

/-- C1 counterexample: delivering the character content of a property
element in two text events instead of one changes the emitted literal
(only the last chunk is kept), so the quad sequence is not invariant under
splitting. -/
theorem C1_counterexample :
    (parseEvents testCfg textOneChunkEvents).toOption.map (fun st => st.output) ≠
    (parseEvents testCfg textSplitEvents).toOption.map (fun st => st.output) := by decide

/-- C1 (amended): outside XMLLiteral capture mode, a text event overwrites
the top frame's stored text, so only the last text chunk delivered to a
property element is retained: a preceding text event is absorbed. -/
theorem C1_text_overwritten (st : ParserState) (t1 t2 : String)
    (h : ∀ f rest, st.activeTagStack = f :: rest → f.childrenStringTags = none) :
    onText (onText st t1) t2 = onText st t2 := by
  cases hs : st.activeTagStack with
  | nil => simp [onText, hs]
  | cons f rest =>
    have hc := h f rest hs
    cases hp : f.predicate with
    | none => simp [onText, hs, hc, hp]
    | some p => simp [onText, hs, hc, hp, updateTop]

/-- C1 witness: the overwrite equation at a concrete property frame. -/
theorem C1_witness : onText (onText textFrameState "a") "b" = onText textFrameState "b" :=
  C1_text_overwritten textFrameState "a" "b" (by
    intro f rest hs
    injection hs with h1 h2
    subst h1
    rfl)

/-! ## Claim C2 -/

/-- C2: a triple emitted with a reified statement id `r` is followed
immediately by the four reification quads in the order type, subject,
predicate, object, all in the configured default graph; and a concrete
`rdf:ID`-bearing property element yields exactly those five quads. -/
theorem C2_reified_fanout :
    (∀ (cfg : Config) (st : ParserState) (s p o r : Term),
      (emitTriple cfg st s p o (some r)).output = st.output ++
        [⟨s, p, o, cfg.defaultGraph⟩,
         ⟨r, Term.namedNode (RDF_NS ++ "type"), Term.namedNode (RDF_NS ++ "Statement"),
           cfg.defaultGraph⟩,
         ⟨r, Term.namedNode (RDF_NS ++ "subject"), s, cfg.defaultGraph⟩,
         ⟨r, Term.namedNode (RDF_NS ++ "predicate"), p, cfg.defaultGraph⟩,
         ⟨r, Term.namedNode (RDF_NS ++ "object"), o, cfg.defaultGraph⟩]) ∧
    (parseEvents testCfg reifEvents).toOption.map (fun st => st.output) = some reifExpected := by
  constructor
  · intro cfg st s p o r
    simp [emitTriple]
  · decide

/-! ## Claim C3 -/

/-- C3 counterexample: two `rdf:ID="a"` occurrences under different
`xml:base` values parse without error even though the attribute values are
equal: the registry stores the resolved IRIs, not the raw values. -/
theorem C3_counterexample : (parseEvents testCfg dupIdEvents).isOk = true := by decide

/-- C3 (amended): claiming an already-registered resolved ID errors unless
`allowDuplicateRdfIds` is set, in which case `claimNodeId` is the identity;
and the node-ID registry only ever grows along a run. -/
theorem C3_node_id_registry :
    (∀ (cfg : Config) (st : ParserState) (term : Term), cfg.allowDuplicateRdfIds = false →
      termValue term ∈ st.nodeIds → (claimNodeId cfg st term).isOk = false) ∧
    (∀ (cfg : Config) (st : ParserState) (term : Term), cfg.allowDuplicateRdfIds = true →
      claimNodeId cfg st term = .ok st) ∧
    (∀ (cfg : Config) (evts : List SaxEvent) (st st' : ParserState),
      runEvents cfg evts st = .ok st' → st.nodeIds ⊆ st'.nodeIds) := by
  refine ⟨?_, ?_, ?_⟩
  · intro cfg st term hdup hmem
    unfold claimNodeId
    rw [if_neg (by simp [hdup]), if_pos (by simpa using hmem)]
    rfl
  · intro cfg st term hdup
    unfold claimNodeId
    rw [if_pos hdup]
  · intro cfg evts st st' h
    exact runEvents_nodeIds_mono cfg evts st st' h

/-- C3 witness: the three conjuncts at concrete inputs. -/
theorem C3_witness :
    (claimNodeId testCfg claimedIdState (Term.namedNode "http://b/#a")).isOk = false ∧
    claimNodeId testCfgDup claimedIdState (Term.namedNode "http://b/#a") = .ok claimedIdState ∧
    initialState.nodeIds ⊆ rdfRootState.nodeIds :=
  ⟨C3_node_id_registry.1 testCfg claimedIdState (Term.namedNode "http://b/#a") rfl (by decide),
   C3_node_id_registry.2.1 testCfgDup claimedIdState (Term.namedNode "http://b/#a") rfl,
   C3_node_id_registry.2.2 testCfg [.openTag "rdf:RDF" [("xmlns:rdf", RDF_NS)]]
     initialState rdfRootState (by rfl)⟩

/-! ## Claim C4 -/

/-- C4 counterexample: a document whose root element is `rdf:li` (a
forbidden node-element name other than `RDF`) parses without error: the
root skips the forbidden-name check entirely. -/
theorem C4_counterexample : (parseEvents testCfg rootLiEvents).isOk = true := by decide

/-- C4 (amended): every non-root element opened in resource mode whose
expanded name has the RDF namespace and a forbidden local name raises the
illegal-node-element-name error. -/
theorem C4_forbidden_nonroot (cfg : Config) (st : ParserState) (name : String)
    (attrs : List (String × String)) (activeTag : IActiveTag) (pt : Option IActiveTag)
    (e : Expanded)
    (hexp : expandPrefixedTerm name (activeTag.ns.getD []) = .ok e)
    (hrdf : e.uri = RDF_NS)
    (hmem : FORBIDDEN_NODE_ELEMENTS.contains e.localName = true) :
    onTagResource cfg st name attrs activeTag pt false =
      .error ("Illegal node element name: " ++ e.localName) := by
  have hmem' : e.localName ∈ FORBIDDEN_NODE_ELEMENTS := by simpa using hmem
  unfold onTagResource
  simp [hexp, hrdf, hmem']

/-- C4 witness: a non-root `rdf:ID` node element errors. -/
theorem C4_witness :
    onTagResource testCfg initialState "rdf:ID" [] rdfNsTag none false =
      .error ("Illegal node element name: " ++ "ID") :=
  C4_forbidden_nonroot testCfg initialState "rdf:ID" [] rdfNsTag none
    ⟨"rdf", "ID", RDF_NS⟩ rfl rfl (by decide)

/-! ## Claim C5 -/

/-- C5 counterexample: `rdf:about=""` followed by `rdf:nodeID="x"` on the
same node element parses without error, because the recorded first value is
the empty string and the conflict check tests JS truthiness. -/
theorem C5_counterexample : (parseEvents testCfg emptyAboutEvents).isOk = true := by decide

/-- C5 (amended): a second subject-specifying attribute among `rdf:about`,
`rdf:ID`, `rdf:nodeID` raises an error whenever the previously recorded
subject value is truthy (nonempty); an empty first value raises none. -/
theorem C5_second_subject_attr (cfg : Config) (s : ResAttrState) (k v : String) (e : Expanded)
    (hexp : expandPrefixedTerm k (s.activeTag.ns.getD []) = .ok e)
    (hrdf : e.uri = RDF_NS)
    (hloc : e.localName = "about" ∨ e.localName = "ID" ∨ e.localName = "nodeID")
    (hdup : strTruthy s.activeSubjectValue = true) :
    onTagResourceAttr cfg true s (k, v) =
      .error "Only one of rdf:about, rdf:nodeID and rdf:ID can be present" := by
  unfold onTagResourceAttr
  rcases hloc with h | h | h <;> simp [hexp, hrdf, h, hdup]

/-- C5 witness: a second `rdf:ID` after a truthy recorded value errors. -/
theorem C5_witness :
    onTagResourceAttr testCfg true
      { activeTag := rdfNsTag, activeSubjectValue := some "x" } ("rdf:ID", "y") =
      .error "Only one of rdf:about, rdf:nodeID and rdf:ID can be present" :=
  C5_second_subject_attr testCfg
    { activeTag := rdfNsTag, activeSubjectValue := some "x" } "rdf:ID" "y"
    ⟨"rdf", "ID", RDF_NS⟩ rfl rfl (Or.inr (Or.inl rfl)) rfl

/-! ## Claim C6 -/

/-- C6: when a name's namespace stack holds no binding for its colon-split
first component, the expansion falls back to the innermost truthy default
namespace (or the empty string) if that component is empty or literally
`xmlns`, and fails otherwise. -/
theorem C6_unbound_pfx (term : String) (ns : List (List (String × String)))
    (h : ∀ m ∈ ns, strTruthy (jsGet m (splitPrefixLocal term).1) = false) :
    ((splitPrefixLocal term).1 = "" ∨ (splitPrefixLocal term).1 = "xmlns" →
      expandPrefixedTerm term ns = .ok ⟨(splitPrefixLocal term).1, (splitPrefixLocal term).2,
        (innermostTruthyDefault ns.reverse).getD ""⟩) ∧
    (¬((splitPrefixLocal term).1 = "") → ¬((splitPrefixLocal term).1 = "xmlns") →
      (expandPrefixedTerm term ns).isOk = false) := by
  have h' : ∀ m ∈ ns.reverse, strTruthy (jsGet m (splitPrefixLocal term).1) = false := by
    intro m hm
    exact h m (List.mem_reverse.mp hm)
  obtain ⟨hl1, hl2⟩ := expandLookup_noBinding (splitPrefixLocal term).1 ns.reverse none h'
  constructor
  · intro hp
    rcases hp with hp | hp
    · rw [hp] at hl1 hl2
      unfold expandPrefixedTerm
      simp only [hp, hl1]
      rw [hl2]
      simp [strTruthy]
    · rw [hp] at hl1 hl2
      unfold expandPrefixedTerm
      simp only [hp, hl1]
      rw [hl2]
      simp [strTruthy]
  · intro h1 h2
    unfold expandPrefixedTerm
    simp only [hl1]
    simp [strTruthy, h1, h2, Except.isOk, Except.toBool]

/-- C6 witness: an unbound `xmlns` first component succeeds with the empty
default, an unbound other component fails. -/
theorem C6_witness :
    expandPrefixedTerm "xmlns:q" [[("a", "http://a/")]] =
      .ok ⟨(splitPrefixLocal "xmlns:q").1, (splitPrefixLocal "xmlns:q").2,
        (innermostTruthyDefault
          ([[("a", "http://a/")]] : List (List (String × String))).reverse).getD ""⟩ ∧
    (expandPrefixedTerm "foo:bar" [[("a", "http://a/")]]).isOk = false :=
  ⟨(C6_unbound_pfx "xmlns:q" [[("a", "http://a/")]] (by decide)).1 (Or.inr (by decide)),
   (C6_unbound_pfx "foo:bar" [[("a", "http://a/")]] (by decide)).2 (by decide) (by decide)⟩

/-! ## Claim C7 -/

/-- C7 counterexample: `rdf:datatype` followed by `rdf:parseType="Foo"` on
the same property element errors: the conflict checks run before the value
of `rdf:parseType` is inspected, also for unrecognized values. -/
theorem C7_counterexample : (parseEvents testCfg unknownParseTypeEvents).isOk = false := by decide

/-- C7 (amended): an `rdf:parseType` value other than `Resource`,
`Collection`, `Literal` has no effect only when the conflict checks pass
(no property attribute, no `rdf:datatype`, no truthy sub-subject); with
`rdf:datatype` present it errors regardless of the unknown value. -/
theorem C7_unknown_parse_type (cfg : Config) (s : PropAttrState) (k v : String) (e : Expanded)
    (hexp : expandPrefixedTerm k (s.activeTag.ns.getD []) = .ok e)
    (hrdf : e.uri = RDF_NS) (hloc : e.localName = "parseType")
    (hv1 : v ≠ "Resource") (hv2 : v ≠ "Collection") (hv3 : v ≠ "Literal") :
    (s.attributedProperty = false → s.activeTag.datatype = none →
      strTruthy s.activeSubSubjectValue = false →
      onTagPropertyAttr cfg s (k, v) = .ok s) ∧
    (s.activeTag.datatype.isSome = true → (onTagPropertyAttr cfg s (k, v)).isOk = false) := by
  constructor
  · intro h1 h2 h3
    unfold onTagPropertyAttr
    simp [hexp, hrdf, hloc, propAttrParseType, h1, h2, h3, hv1, hv2, hv3]
  · intro hd
    unfold onTagPropertyAttr
    cases hap : s.attributedProperty <;>
      simp [hexp, hrdf, hloc, propAttrParseType, hap, hd, Except.isOk, Except.toBool]

/-- C7 witness: `rdf:parseType="Foo"` is a no-op on a clean frame and
errors when a datatype is present. -/
theorem C7_witness :
    onTagPropertyAttr testCfg { st := initialState, activeTag := rdfNsTag }
      ("rdf:parseType", "Foo") = .ok { st := initialState, activeTag := rdfNsTag } ∧
    (onTagPropertyAttr testCfg
      { st := initialState, activeTag := { rdfNsTag with datatype := some "http://e/d" } }
      ("rdf:parseType", "Foo")).isOk = false :=
  ⟨(C7_unknown_parse_type testCfg { st := initialState, activeTag := rdfNsTag }
      "rdf:parseType" "Foo" ⟨"rdf", "parseType", RDF_NS⟩ rfl rfl rfl
      (by decide) (by decide) (by decide)).1 rfl rfl rfl,
   (C7_unknown_parse_type testCfg
      { st := initialState, activeTag := { rdfNsTag with datatype := some "http://e/d" } }
      "rdf:parseType" "Foo" ⟨"rdf", "parseType", RDF_NS⟩ rfl rfl rfl
      (by decide) (by decide) (by decide)).2 rfl⟩

/-! ## Claim C8 -/

/-- C8: a text event appends to the capture buffer in XMLLiteral mode,
replaces the stored text when the top frame has a predicate, and leaves the
state unchanged otherwise; it never emits and never touches the registry. -/
theorem C8_onText_cases :
    (∀ (st : ParserState) (txt : String) (f : IActiveTag) (rest : List IActiveTag)
        (l : List String),
      st.activeTagStack = f :: rest → f.childrenStringTags = some l →
      onText st txt =
        { st with activeTagStack :=
            { f with childrenStringTags := some (l ++ [txt]) } :: rest }) ∧
    (∀ st txt f rest, st.activeTagStack = f :: rest → f.childrenStringTags = none →
      f.predicate.isSome = true →
      onText st txt = { st with activeTagStack := { f with text := some txt } :: rest }) ∧
    (∀ st txt f rest, st.activeTagStack = f :: rest → f.childrenStringTags = none →
      f.predicate = none → onText st txt = st) ∧
    (∀ st txt, st.activeTagStack = [] → onText st txt = st) ∧
    (∀ st txt, (onText st txt).output = st.output ∧ (onText st txt).nodeIds = st.nodeIds ∧
       (onText st txt).blankNodeCounter = st.blankNodeCounter) := by
  refine ⟨?_, ?_, ?_, ?_, ?_⟩
  · intro st txt f rest l hs hc
    simp [onText, hs, hc, updateTop]
  · intro st txt f rest hs hc hp
    obtain ⟨p, hp'⟩ := Option.isSome_iff_exists.mp hp
    simp [onText, hs, hc, hp', updateTop]
  · intro st txt f rest hs hc hp
    simp [onText, hs, hc, hp]
  · intro st txt hs
    simp [onText, hs]
  · intro st txt
    cases hs : st.activeTagStack with
    | nil => simp [onText, hs]
    | cons f rest =>
      cases hc : f.childrenStringTags with
      | some l => simp [onText, hs, hc, updateTop]
      | none => cases hp : f.predicate <;> simp [onText, hs, hc, hp, updateTop]

/-- C8 witness: the append and overwrite cases at concrete frames. -/
theorem C8_witness :
    onText captureFrameState "b" =
      { captureFrameState with activeTagStack :=
          [{ ({ childrenStringTags := some ["a"], baseIRI := "http://b/" } : IActiveTag) with
              childrenStringTags := some (["a"] ++ ["b"]) }] } ∧
    onText textFrameState "hello" =
      { textFrameState with activeTagStack := [{ predFrame with text := some "hello" }] } :=
  ⟨C8_onText_cases.1 captureFrameState "b"
      { childrenStringTags := some ["a"], baseIRI := "http://b/" } [] ["a"] rfl rfl,
   C8_onText_cases.2.1 textFrameState "hello" predFrame [] rfl rfl rfl⟩

/-! ## Claim C9 -/

/-- C9 counterexample: `xml:lang` on the root element mutates the root
frame itself: after the root open tag the bottom frame's language is
`en`, not unset. -/
theorem C9_counterexample :
    (parseEvents testCfg rootLangEvents).toOption.map
      (fun st => st.activeTagStack.map (fun f => (f.baseIRI, f.language))) =
    some [("http://b/", some "en")] := by decide

/-- C9 (amended): when no attribute of the root element expands to
`xml:lang` or `xml:base`, the bottom frame of the stack keeps the
configured base IRI and no language in every later state whose run keeps
the stack nonempty. -/
theorem C9_root_base_language (cfg : Config) (name : String)
    (attrs : List (String × String)) (rest : List SaxEvent) (st1 st' : ParserState)
    (hlb : noLangBase attrs = true)
    (h1 : step cfg initialState (.openTag name attrs) = .ok st1)
    (hne : stackAlwaysNonempty cfg st1 rest = true)
    (hrun : runEvents cfg rest st1 = .ok st') :
    bottomBaseLang st'.activeTagStack = some (cfg.baseIRI, none) := by
  rw [runEvents_bottomBaseLang cfg rest st1 st' hrun hne]
  exact step_root_langBase cfg initialState st1 name attrs rfl hlb h1

/-- C9 witness: the invariant after opening a bare `rdf:RDF` root. -/
theorem C9_witness :
    bottomBaseLang rdfRootState.activeTagStack = some (testCfg.baseIRI, none) :=
  C9_root_base_language testCfg "rdf:RDF" [("xmlns:rdf", RDF_NS)] [] rdfRootState rdfRootState
    (by decide) (by rfl) (by decide) (by rfl)

/-! ## Claim C10 -/

/-- C10: a root node element's subject is always a freshly minted blank
node; its attributes produce no shorthand or `rdf:type`-attribute triples
and claim no node IDs, and a typed root emits exactly one type quad. -/
theorem C10_root_subject (cfg : Config) (st st' : ParserState) (name : String)
    (attrs : List (String × String))
    (hstack : st.activeTagStack = [])
    (h : step cfg st (.openTag name attrs) = .ok st') :
    ∃ e, expandPrefixedTerm name (parseNamespace attrs none) = .ok e ∧
      (∃ f, st'.activeTagStack = [f] ∧
        f.subject = some (Term.blankNode (freshLabel st.blankNodeCounter))) ∧
      st'.output = st.output ++
        (if e.uri = RDF_NS ∧ (e.localName = "RDF" ∨ e.localName = "Description") then []
         else [⟨Term.blankNode (freshLabel st.blankNodeCounter),
               Term.namedNode (RDF_NS ++ "type"),
               Term.namedNode (e.uri ++ e.localName), cfg.defaultGraph⟩]) ∧
      st'.nodeIds = st.nodeIds := by
  unfold step onTag at h
  rw [hstack] at h
  dsimp only at h
  cases hres : onTagResource cfg st name attrs
      { baseIRI := cfg.baseIRI, ns := some (parseNamespace attrs none) } none true with
  | error e => rw [hres] at h; cases h
  | ok r =>
    obtain ⟨st2, t, pt⟩ := r
    rw [hres] at h
    dsimp only at h
    obtain ⟨e, he, hsubj, hout, hids⟩ :=
      onTagResource_root cfg st st2 name attrs _ t pt rfl hres
    simp only [Except.ok.injEq] at h
    subst h
    refine ⟨e, by simpa using he, ⟨t, rfl, hsubj⟩, hout, hids⟩

/-- C10 witness: a typed root with `rdf:about` still gets a fresh blank
node subject and exactly one type quad. -/
theorem C10_witness :
    ∃ e, expandPrefixedTerm "ex:Thing"
        (parseNamespace [("xmlns:ex", "http://e/"), ("rdf:about", "http://e/a"),
          ("xmlns:rdf", RDF_NS)] none) = .ok e ∧
      (∃ f, typedRootState.activeTagStack = [f] ∧
        f.subject = some (Term.blankNode (freshLabel initialState.blankNodeCounter))) ∧
      typedRootState.output = initialState.output ++
        (if e.uri = RDF_NS ∧ (e.localName = "RDF" ∨ e.localName = "Description") then []
         else [⟨Term.blankNode (freshLabel initialState.blankNodeCounter),
               Term.namedNode (RDF_NS ++ "type"),
               Term.namedNode (e.uri ++ e.localName), testCfg.defaultGraph⟩]) ∧
      typedRootState.nodeIds = initialState.nodeIds :=
  C10_root_subject testCfg initialState typedRootState "ex:Thing"
    [("xmlns:ex", "http://e/"), ("rdf:about", "http://e/a"), ("xmlns:rdf", RDF_NS)] rfl rfl

end RdfXml
